import Mathlib

/-!
# Sovereign — combat engine, NPC generator and tick engine: a shallow embedding

This file embeds the round-based combat resolution engine
(`src/lib/game/combat.ts`, later version), the NPC defender generator
(`src/lib/game/npc.ts`) and the debounce-guarded world-tick engine
(`src/lib/game/tick.ts`) in Lean 4, and proves the specification claims
about them.

Modelling conventions:
* JavaScript numbers are modelled as exact rationals (`ℚ`); `Math.floor`
  is `Int.floor`, `Math.round` is `⌊x + 1/2⌋` (JS rounds half toward +∞).
* Unit quantities and loss counters are natural numbers; every kill count
  in the source is `Math.floor` of a nonnegative quantity, optionally
  clamped by `Math.min(_, quantity)`, which we render as
  `(Int.floor _).toNat` (the `toNat` clamp is inert because the dividend
  is nonnegative at every call site).
* The mutable tracker arrays of the source become immutable lists threaded
  through the phase functions; aliasing (the source sorts an array of
  references and mutates through them) is rendered by processing a list of
  positions into the tracker list.
* JavaScript `Map` objects keyed by unit-type strings become association
  lists with first-match lookup and position-preserving overwrite, which
  matches `Map` insertion-order semantics.
* `Array.prototype.sort` is stable (ES2019); we embed the speed sort as
  `List.insertionSort`, which is likewise stable.
-/

namespace Sovereign

/-! ## Static configuration tables (`constants.ts`) -/

def WALL_HP_PER_LEVEL : ℚ := 100

def GUARD_TOWER_DAMAGE_PER_LEVEL : ℚ := 20

/-- Modelled from the spec: `CAVALRY_CHARGE_MULTIPLIER` is imported by the
round-based combat engine from its constants module, but the constants
version shipped under `src/` predates the round-based engine and does not
define it.  The spec describes only "a first-round-only cavalry charge
multiplier applied to cavalry contributions" without a numeric value; we
fix the representative value `3/2`.  No claim in this development depends
on the particular value. -/
def CAVALRY_CHARGE_MULTIPLIER : ℚ := 3 / 2

structure UnitStats where
  attack : ℚ
  defense : ℚ
  speed : ℚ
  carryCapacity : ℚ
  provisionPerTile : ℚ
deriving DecidableEq

/-- `UNIT_STATS` from `constants.ts`; a string-keyed table, `none` for a
unit type that is not present. -/
def UNIT_STATS : String → Option UnitStats
  | "INFANTRY" => some ⟨10, 8, 1/2, 0, 2⟩
  | "ARCHER" => some ⟨12, 5, 1/2, 0, 2⟩
  | "HEAVY_INFANTRY" => some ⟨8, 15, 3/10, 0, 3⟩
  | "WARDEN" => some ⟨3, 25, 1/10, 0, 1⟩
  | "CARAVAN" => some ⟨0, 2, 2/5, 200, 4⟩
  | "SCOUT" => some ⟨2, 2, 2, 0, 1⟩
  | "CAVALRY" => some ⟨15, 10, 1, 0, 5⟩
  | _ => none

/-- `COMBAT_TRIANGLE[a]?.[t]` from `constants.ts`: the sparse matchup
matrix; `none` where the source dictionary has no entry. -/
def COMBAT_TRIANGLE : String → String → Option ℚ
  | "CAVALRY", "ARCHER" => some (5/4)
  | "CAVALRY", "INFANTRY" => some (4/5)
  | "CAVALRY", "HEAVY_INFANTRY" => some (3/4)
  | "ARCHER", "INFANTRY" => some (5/4)
  | "ARCHER", "CAVALRY" => some (4/5)
  | "INFANTRY", "CAVALRY" => some (5/4)
  | "INFANTRY", "ARCHER" => some (4/5)
  | "HEAVY_INFANTRY", "CAVALRY" => some (59/50)
  | _, _ => none

/-- `RANGED_TYPES` — unit types that fire in the ranged phase. -/
def isRangedType (u : String) : Bool := u == "ARCHER"

/-- `MELEE_TYPES` — unit types that deal damage in the melee phase. -/
def isMeleeType (u : String) : Bool :=
  u == "INFANTRY" || u == "HEAVY_INFANTRY" || u == "CAVALRY" ||
    u == "WARDEN" || u == "SCOUT"

/-! ## Combat data model (`combat.ts`) -/

structure UnitGroup where
  unitType : String
  quantity : ℕ
deriving DecidableEq

structure DefenseStructure where
  type : String
  level : ℕ
deriving DecidableEq

structure ArmyForCombat where
  units : List UnitGroup
  provisions : ℚ
  isDefending : Bool
  defenseStructures : Option (List DefenseStructure)
  manaReserve : Option ℚ
deriving DecidableEq

/-- Internal mutable tracker for units surviving through combat phases. -/
structure UnitTracker where
  unitType : String
  quantity : ℕ
  lost : ℕ
deriving DecidableEq

instance : Inhabited UnitTracker := ⟨⟨"", 0, 0⟩⟩

structure LossEntry where
  unitType : String
  lost : ℕ
deriving DecidableEq

structure Loot where
  ore : ℤ
  provisions : ℤ
  gold : ℤ
deriving DecidableEq

structure RangedReport where
  attackerCasualties : List LossEntry
  defenderCasualties : List LossEntry
  guardTowerDamage : ℚ
deriving DecidableEq

structure MeleeReport where
  attackerCasualties : List LossEntry
  defenderCasualties : List LossEntry
  wallDamageAbsorbed : ℚ
deriving DecidableEq

structure CombatResult where
  attackerWins : Bool
  attackerLosses : List LossEntry
  defenderLosses : List LossEntry
  loot : Loot
  ranged : RangedReport
  melee : MeleeReport
deriving DecidableEq

/-! ## Combat helpers -/

/-- `(getStats(u)?.attack ?? 0)`. -/
def statAttack (u : String) : ℚ := ((UNIT_STATS u).map (·.attack)).getD 0

/-- `(getStats(u)?.defense ?? 1)` — note the default is `1`, not `0`. -/
def statDefenseOr1 (u : String) : ℚ := ((UNIT_STATS u).map (·.defense)).getD 1

/-- `(getStats(u)?.speed ?? 0)`. -/
def statSpeed (u : String) : ℚ := ((UNIT_STATS u).map (·.speed)).getD 0

/-- `COMBAT_TRIANGLE[a]?.[t] ?? 1.0`. -/
def triangleOr1 (a t : String) : ℚ := (COMBAT_TRIANGLE a t).getD 1

/-- Mana reserve bonus: +1% per 100 mana, capped at 25%. -/
def getManaDefenseMultiplier (manaReserve : ℚ) : ℚ :=
  1 + (min ⌊manaReserve / 100⌋ 25 : ℚ) / 100

/-- `hasCaravans`. -/
def hasCaravans (units : List UnitGroup) : Bool :=
  units.any (fun u => u.unitType == "CARAVAN" && 0 < u.quantity)

/-- `getCarryCapacity`. -/
def getCarryCapacity (units : List UnitGroup) : ℚ :=
  units.foldl
    (fun capacity u =>
      match UNIT_STATS u.unitType with
      | some stats =>
          if 0 < stats.carryCapacity then
            capacity + stats.carryCapacity * u.quantity
          else capacity
      | none => capacity)
    0

/-- The HP-pool sum `targets.reduce((sum, u) => sum + (s?.defense ?? 1) *
u.quantity, 0)` used by both proportional damage appliers. -/
def targetTotalHp (targets : List UnitTracker) : ℚ :=
  targets.foldl (fun sum u => sum + statDefenseOr1 u.unitType * u.quantity) 0

/-- Raw melee damage of an attacker snapshot:
`attackers.reduce((sum, u) => sum + (s?.attack ?? 0) * u.quantity, 0)`. -/
def rawAttackSum (units : List UnitTracker) : ℚ :=
  units.foldl (fun sum u => sum + statAttack u.unitType * u.quantity) 0

/-- `applyRangedProportional` — each target's kill count is computed from
the pre-phase HP-pool total and its own pre-phase quantity (the source
mutates each array element exactly once, after reading it). -/
def applyRangedProportional (rawDamage : ℚ) (targets : List UnitTracker) :
    List UnitTracker :=
  let totalHp := targetTotalHp targets
  if totalHp ≤ 0 then targets
  else
    targets.map (fun t =>
      if t.quantity = 0 then t
      else
        match UNIT_STATS t.unitType with
        | none => t
        | some s =>
            let share := (t.quantity * s.defense) / totalHp
            let triangle := triangleOr1 "ARCHER" t.unitType
            let damage := rawDamage * share * triangle
            let killed := min (Int.toNat ⌊damage / s.defense⌋) t.quantity
            { t with quantity := t.quantity - killed, lost := t.lost + killed })

/-- The body of the `applyRangedSpeedOrder` loop for the group at position
`i` of the tracker list, threading `(targets, remaining damage pool)`.
`remaining ≤ 0` renders the source's `break` (every later step is then the
identity). -/
def speedOrderStep (st : List UnitTracker × ℚ) (i : ℕ) :
    List UnitTracker × ℚ :=
  let ts := st.1
  let remaining := st.2
  if remaining ≤ 0 then st
  else
    let t := ts.getD i default
    match UNIT_STATS t.unitType with
    | none => st
    | some s =>
        if t.quantity = 0 then st
        else
          let triangle := triangleOr1 "ARCHER" t.unitType
          let hpPool := (t.quantity : ℚ) * s.defense
          let effectiveDamage := remaining * triangle
          if hpPool ≤ effectiveDamage then
            (ts.set i { t with quantity := 0, lost := t.lost + t.quantity },
              remaining - hpPool / triangle)
          else
            let killed := Int.toNat ⌊effectiveDamage / s.defense⌋
            (ts.set i { t with quantity := t.quantity - killed,
                               lost := t.lost + killed },
              0)

/-- The processing order of `applyRangedSpeedOrder`: the positions of the
live groups, stably sorted by ascending unit speed (the source sorts an
array of references with comparator `sa - sb`; `Array.sort` is stable). -/
def speedSortedIdx (ts : List UnitTracker) : List ℕ :=
  List.insertionSort
    (fun i j =>
      statSpeed (ts.getD i default).unitType ≤
        statSpeed (ts.getD j default).unitType)
    ((List.range ts.length).filter (fun i => 0 < (ts.getD i default).quantity))

/-- `applyRangedSpeedOrder` — slowest-first consumption of a raw damage
pool. -/
def applyRangedSpeedOrder (totalDamage : ℚ) (targets : List UnitTracker) :
    List UnitTracker :=
  ((speedSortedIdx targets).foldl speedOrderStep (targets, totalDamage)).1

/-- The weighted combat-triangle numerator of `applyMeleeProportional`:
`Σ attack × quantity × (COMBAT_TRIANGLE[a][t] ?? 1)` over attackers with
known stats. -/
def weightedTriangleDamage (attackers : List UnitTracker) (target : String) : ℚ :=
  attackers.foldl
    (fun weighted a =>
      match UNIT_STATS a.unitType with
      | none => weighted
      | some s => weighted + s.attack * a.quantity * triangleOr1 a.unitType target)
    0

/-- `applyMeleeProportional` — proportional-by-HP-pool distribution with a
weighted-average combat triangle taken from the attacking snapshot. -/
def applyMeleeProportional (totalDamage : ℚ) (attackers targets : List UnitTracker) :
    List UnitTracker :=
  let totalRaw := rawAttackSum attackers
  let totalTargetHp := targetTotalHp targets
  if totalTargetHp ≤ 0 ∨ totalRaw ≤ 0 then targets
  else
    targets.map (fun t =>
      if t.quantity = 0 then t
      else
        match UNIT_STATS t.unitType with
        | none => t
        | some tStats =>
            let share := (t.quantity * tStats.defense) / totalTargetHp
            let avgTriangle := weightedTriangleDamage attackers t.unitType / totalRaw
            let damage := totalDamage * share * avgTriangle
            let killed := min (Int.toNat ⌊damage / tStats.defense⌋) t.quantity
            { t with quantity := t.quantity - killed, lost := t.lost + killed })

/-! ## JS `Map<string, number>` as an association list

`mapSet` overwrites in place (a `Map` keeps the original insertion
position on overwrite) and appends a fresh key; `mapGetD` is lookup with
default `0`; `lossMapOf` is `new Map(pairs)` (later pairs overwrite). -/

abbrev LossMap := List (String × ℕ)

def mapGetD (m : LossMap) (k : String) : ℕ :=
  ((m.find? (fun p => p.1 == k)).map (·.2)).getD 0

def mapSet (m : LossMap) (k : String) (v : ℕ) : LossMap :=
  match m with
  | [] => [(k, v)]
  | p :: rest => if p.1 == k then (k, v) :: rest else p :: mapSet rest k v

def lossMapOf (pairs : List (String × ℕ)) : LossMap :=
  pairs.foldl (fun m p => mapSet m p.1 p.2) []

/-- `snapshotLost` for one side: `new Map(units.map(u => [u.unitType, u.lost]))`. -/
def snapshotLostOf (units : List UnitTracker) : LossMap :=
  lossMapOf (units.map (fun u => (u.unitType, u.lost)))

/-- `accumulateDelta`: fold the per-tracker loss delta since `before` into
the accumulator.  `u.lost - before` in ℕ agrees with the source's signed
subtraction under the `delta > 0` guard. -/
def accumulateDelta (units : List UnitTracker) (before acc : LossMap) : LossMap :=
  units.foldl
    (fun acc u =>
      let delta := u.lost - mapGetD before u.unitType
      if 0 < delta then mapSet acc u.unitType (mapGetD acc u.unitType + delta)
      else acc)
    acc

/-- `mapToLossArray`: insertion-order entries with positive loss. -/
def mapToLossArray (m : LossMap) : List LossEntry :=
  m.filterMap (fun p => if 0 < p.2 then some ⟨p.1, p.2⟩ else none)

/-! ## The round loop of the round-based `resolveCombat` -/

/-- `sumLost`. -/
def sumLost (units : List UnitTracker) : ℕ :=
  units.foldl (fun sum u => sum + u.lost) 0

/-- `units.some((u) => u.quantity > 0)`. -/
def anyAlive (units : List UnitTracker) : Bool :=
  units.any (fun u => 0 < u.quantity)

/-- Loop-constant configuration captured before the round loop:
the per-round guard-tower damage and the mana defense multiplier. -/
structure CombatConfig where
  guardTowerDmg : ℚ
  manaMultiplier : ℚ
deriving DecidableEq

/-- The mutable state threaded through the round loop. -/
structure BattleState where
  atkUnits : List UnitTracker
  defUnits : List UnitTracker
  wallHpRemaining : ℚ
  totalRangedAtkLost : LossMap
  totalRangedDefLost : LossMap
  totalWallDamageAbsorbed : ℚ
deriving DecidableEq

/-- Raw archer damage of one side for the current round:
`units.filter(RANGED ∧ q>0).reduce(sum + (attack ?? 0) × q, 0)`. -/
def archerRaw (units : List UnitTracker) : ℚ :=
  rawAttackSum (units.filter (fun u => isRangedType u.unitType && 0 < u.quantity))

/-- The ranged volley of one round: both raw damages are computed from the
pre-casualty trackers, then the attacker's volley hits the defenders
proportionally and the defender's volley (archers + guard tower) hits the
attackers in speed order; per-round ranged losses are folded into the
accumulators. -/
def rangedPhase (cfg : CombatConfig) (st : BattleState) : BattleState :=
  let beforeAtk := snapshotLostOf st.atkUnits
  let beforeDef := snapshotLostOf st.defUnits
  let atkArcherRaw := archerRaw st.atkUnits
  let defArcherRaw := archerRaw st.defUnits
  let totalDefRanged := defArcherRaw + cfg.guardTowerDmg
  let defU := if 0 < atkArcherRaw then applyRangedProportional atkArcherRaw st.defUnits
    else st.defUnits
  let atkU := if 0 < totalDefRanged then applyRangedSpeedOrder totalDefRanged st.atkUnits
    else st.atkUnits
  { st with
    atkUnits := atkU
    defUnits := defU
    totalRangedAtkLost := accumulateDelta atkU beforeAtk st.totalRangedAtkLost
    totalRangedDefLost := accumulateDelta defU beforeDef st.totalRangedDefLost }

/-- Attacker melee raw damage for round `round`, with the first-round-only
cavalry charge multiplier. -/
def atkMeleeRaw (round : ℕ) (atkMelee : List UnitTracker) : ℚ :=
  atkMelee.foldl
    (fun sum u =>
      let atk := statAttack u.unitType * u.quantity
      let atk := if round = 0 && u.unitType == "CAVALRY" then
        atk * CAVALRY_CHARGE_MULTIPLIER else atk
      sum + atk)
    0

/-- The melee sub-phase of one round: attacker melee first drains the wall
HP pool, overflow and the mana-scaled defender melee are applied
proportionally, both using snapshots taken before this round's melee
casualties. -/
def meleePhase (cfg : CombatConfig) (round : ℕ) (st : BattleState) : BattleState :=
  let atkMelee := st.atkUnits.filter (fun u => isMeleeType u.unitType && 0 < u.quantity)
  let totalAtkMeleeRaw := atkMeleeRaw round atkMelee
  let defMelee := st.defUnits.filter (fun u => isMeleeType u.unitType && 0 < u.quantity)
  let totalDefMeleeRaw := rawAttackSum defMelee * cfg.manaMultiplier
  let wallAbsorbed := min totalAtkMeleeRaw st.wallHpRemaining
  let dmgAfterWall := totalAtkMeleeRaw - wallAbsorbed
  let defU := if 0 < dmgAfterWall then applyMeleeProportional dmgAfterWall atkMelee st.defUnits
    else st.defUnits
  let atkU := if 0 < totalDefMeleeRaw then applyMeleeProportional totalDefMeleeRaw defMelee st.atkUnits
    else st.atkUnits
  { st with
    atkUnits := atkU
    defUnits := defU
    wallHpRemaining := st.wallHpRemaining - wallAbsorbed
    totalWallDamageAbsorbed := st.totalWallDamageAbsorbed + wallAbsorbed }

/-- One iteration of the round loop.  The returned flag is `true` when the
loop `break`s after this round: either the ranged volley wiped a side
(melee skipped), or the completed round produced zero new casualties. -/
def runRound (cfg : CombatConfig) (round : ℕ) (st : BattleState) :
    BattleState × Bool :=
  let lostBefore := sumLost st.atkUnits + sumLost st.defUnits
  let st1 := rangedPhase cfg st
  if !(anyAlive st1.atkUnits) || !(anyAlive st1.defUnits) then (st1, true)
  else
    let st2 := meleePhase cfg round st1
    (st2, sumLost st2.atkUnits + sumLost st2.defUnits == lostBefore)

/-- Safety cap to prevent infinite loops. -/
def MAX_ROUNDS : ℕ := 50

/-- The round loop: runs while fuel remains and both sides have survivors,
stopping on a `break` flag.  Also counts the executed rounds. -/
def combatLoop (cfg : CombatConfig) : ℕ → ℕ → BattleState → BattleState × ℕ
  | 0, _, st => (st, 0)
  | fuel + 1, round, st =>
      if anyAlive st.atkUnits && anyAlive st.defUnits then
        let p := runRound cfg round st
        if p.2 then (p.1, 1)
        else
          let q := combatLoop cfg fuel (round + 1) p.1
          (q.1, q.2 + 1)
      else (st, 0)

/-! ## `resolveCombat` (round-based version) -/

/-- Initial trackers: positive-quantity groups with `lost = 0`. -/
def mkTrackers (units : List UnitGroup) : List UnitTracker :=
  (units.filter (fun u => 0 < u.quantity)).map
    (fun u => ⟨u.unitType, u.quantity, 0⟩)

/-- Wall and guard-tower levels from the defender's structures (last
matching entry wins, as in the source's loop). -/
def extractLevels (defender : ArmyForCombat) : ℕ × ℕ :=
  if defender.isDefending then
    match defender.defenseStructures with
    | some structures =>
        structures.foldl
          (fun wl s =>
            (if s.type == "WALLS" then s.level else wl.1,
             if s.type == "GUARD_TOWER" then s.level else wl.2))
          (0, 0)
    | none => (0, 0)
  else (0, 0)

/-- The mana multiplier guard `defender.isDefending && defender.manaReserve`
(JS truthiness: an absent or zero reserve yields multiplier 1). -/
def manaMultiplierOf (defender : ArmyForCombat) : ℚ :=
  match defender.manaReserve with
  | some m => if defender.isDefending && m != 0 then getManaDefenseMultiplier m else 1
  | none => 1

/-- Remaining raw attack power of a tracker list (winner comparison). -/
def remainingPower (units : List UnitTracker) : ℚ := rawAttackSum units

/-- The initial battle state built by `resolveCombat`. -/
def initialState (attacker defender : ArmyForCombat) : BattleState :=
  { atkUnits := mkTrackers attacker.units
    defUnits := mkTrackers defender.units
    wallHpRemaining := WALL_HP_PER_LEVEL * (extractLevels defender).1
    totalRangedAtkLost := []
    totalRangedDefLost := []
    totalWallDamageAbsorbed := 0 }

/-- The configuration captured by `resolveCombat` before the loop. -/
def configOf (defender : ArmyForCombat) : CombatConfig :=
  { guardTowerDmg := GUARD_TOWER_DAMAGE_PER_LEVEL * (extractLevels defender).2
    manaMultiplier := manaMultiplierOf defender }

/-- The battle state when the round loop exits. -/
def finalState (attacker defender : ArmyForCombat) : BattleState :=
  (combatLoop (configOf defender) MAX_ROUNDS 0 (initialState attacker defender)).1

/-- Winner determination after loop exit. -/
def decideWinner (atkUnits defUnits : List UnitTracker) : Bool :=
  if !(anyAlive defUnits) then true
  else if !(anyAlive atkUnits) then false
  else decide (remainingPower defUnits < remainingPower atkUnits)

/-- Loot: 20% of the defender's declared provisions, capped by caravan
carry capacity, split 40/40/20 with each share floored. -/
def lootOf (attackerWins : Bool) (attacker defender : ArmyForCombat) : Loot :=
  if attackerWins && hasCaravans attacker.units then
    let lootPool := defender.provisions * (1/5)
    let capacity := getCarryCapacity attacker.units
    let actualLoot := min lootPool capacity
    ⟨⌊actualLoot * (2/5)⌋, ⌊actualLoot * (2/5)⌋, ⌊actualLoot * (1/5)⌋⟩
  else ⟨0, 0, 0⟩

/-- `units.filter(u => u.lost > 0).map(...)`. -/
def lossesOf (units : List UnitTracker) : List LossEntry :=
  units.filterMap (fun u => if 0 < u.lost then some ⟨u.unitType, u.lost⟩ else none)

/-- Melee losses: total per-tracker loss minus the accumulated ranged loss
for that unit type, entries kept when positive. -/
def meleeLossesOf (units : List UnitTracker) (rangedAcc : LossMap) : List LossEntry :=
  units.filterMap (fun u =>
    let d := u.lost - mapGetD rangedAcc u.unitType
    if 0 < d then some ⟨u.unitType, d⟩ else none)

/-- The round-based `resolveCombat`. -/
def resolveCombat (attacker defender : ArmyForCombat) : CombatResult :=
  let cfg := configOf defender
  let final := finalState attacker defender
  let attackerWins := decideWinner final.atkUnits final.defUnits
  { attackerWins := attackerWins
    attackerLosses := lossesOf final.atkUnits
    defenderLosses := lossesOf final.defUnits
    loot := lootOf attackerWins attacker defender
    ranged :=
      { attackerCasualties := mapToLossArray final.totalRangedAtkLost
        defenderCasualties := mapToLossArray final.totalRangedDefLost
        guardTowerDamage := cfg.guardTowerDmg }
    melee :=
      { attackerCasualties := meleeLossesOf final.atkUnits final.totalRangedAtkLost
        defenderCasualties := meleeLossesOf final.defUnits final.totalRangedDefLost
        wallDamageAbsorbed := final.totalWallDamageAbsorbed } }

/-! ## Spec-side definitions

These follow the wording of the specification (not the source) and are
used to state refinement-style claims against the embedded code. -/

/-- Spec: total remaining raw attack power, "Σ attack × quantity across
all surviving unit types, ranged and melee alike" (a dead group
contributes zero, so summing over all trackers is the same sum). -/
def totalRemainingPower (units : List UnitTracker) : ℚ :=
  (units.map (fun t => statAttack t.unitType * (t.quantity : ℚ))).sum

/-- Spec: "the defender has zero surviving units". -/
def allWiped (units : List UnitTracker) : Prop :=
  ∀ t ∈ units, t.quantity = 0

instance (units : List UnitTracker) : Decidable (allWiped units) := by
  unfold allWiped; infer_instance

/-! ## Concrete inputs used by witnesses and counterexamples -/

/-- 1 infantry, no defenses: against `duelDef` both sides annihilate each
other in the first melee exchange. -/
def duelAtk : ArmyForCombat := ⟨[⟨"INFANTRY", 1⟩], 0, false, none, none⟩

def duelDef : ArmyForCombat := ⟨[⟨"INFANTRY", 1⟩], 0, false, none, none⟩

/-- Scenario D attacker: 10 infantry and 1 caravan (carry capacity 200). -/
def lootAtk : ArmyForCombat :=
  ⟨[⟨"INFANTRY", 10⟩, ⟨"CARAVAN", 1⟩], 0, false, none, none⟩

/-- Scenario D defender: 1 infantry, 2000 declared provisions. -/
def lootDef : ArmyForCombat := ⟨[⟨"INFANTRY", 1⟩], 2000, true, none, none⟩

/-- Scenario B attacker: 15 infantry (melee raw 150). -/
def wallAtk : ArmyForCombat := ⟨[⟨"INFANTRY", 15⟩], 0, false, none, none⟩

/-- Scenario B defender: walls level 2 (wall HP 200) and enough infantry
to wipe the attacker in the first melee round. -/
def wallDef : ArmyForCombat :=
  ⟨[⟨"INFANTRY", 13⟩], 0, true, some [⟨"WALLS", 2⟩], none⟩

/-- Number of rounds the loop of `resolveCombat attacker defender`
executes. -/
def combatRounds (attacker defender : ArmyForCombat) : ℕ :=
  (combatLoop (configOf defender) MAX_ROUNDS 0 (initialState attacker defender)).2

/-! ## NPC defender generation (`npc.ts`) -/

/-- JavaScript `Math.round`: round half toward `+∞`. -/
def jsRound (q : ℚ) : ℤ := ⌊q + 1/2⌋

structure NPCFaction where
  strength : ℕ
  aggressionLevel : ℚ
deriving DecidableEq

/-- `generateNPCDefenders` from `npc.ts`. -/
def generateNPCDefenders (faction : NPCFaction) (isHideout : Bool) :
    ArmyForCombat :=
  let mult : ℚ := if isHideout then 3/2 else 1
  let s := faction.strength
  let units : List UnitGroup :=
    [⟨"INFANTRY", (jsRound (s * 5 * mult)).toNat⟩,
     ⟨"ARCHER", (jsRound (s * 2 * mult)).toNat⟩]
  let units := if 5 ≤ s then
      units ++ [⟨"HEAVY_INFANTRY", (jsRound (s * 1 * mult)).toNat⟩]
    else units
  let defenseStructures : List DefenseStructure :=
    if isHideout then [⟨"WALLS", min s 3⟩] else []
  { units := units
    provisions := s * 200 * mult
    isDefending := true
    defenseStructures :=
      if 0 < defenseStructures.length then some defenseStructures else none
    manaReserve := none }

/-- Spec-side: the hideout multiplier "1.5 if isHideout else 1.0". -/
def hideoutMult (isHideout : Bool) : ℚ := if isHideout then 3/2 else 1

/-- Spec-side: the fixed per-type NPC ratios (infantry 5, archers 2,
heavy infantry 1). -/
def specNpcRatio : String → ℚ
  | "INFANTRY" => 5
  | "ARCHER" => 2
  | "HEAVY_INFANTRY" => 1
  | _ => 0

/-! ## Additional concrete inputs for witnesses -/

/-- An empty army: its side starts the battle already wiped. -/
def emptyArmy : ArmyForCombat := ⟨[], 0, false, none, none⟩

/-- 1 warden against 1 warden: attack 3 against defense 25 floors to zero
kills, so the very first round produces zero casualties and the loop
stops early. -/
def stallAtk : ArmyForCombat := ⟨[⟨"WARDEN", 1⟩], 0, false, none, none⟩

def stallDef : ArmyForCombat := ⟨[⟨"WARDEN", 1⟩], 0, false, none, none⟩

/-- Faction used by the C9 witness. -/
def npcWitnessFaction : NPCFaction := ⟨6, 0⟩

/-- Spec-side (C5): `actualLoot = min(0.2 × defender provisions, attacker
carry capacity)`, split 40% ore / 40% provisions / 20% gold, floored. -/
def specLoot (a d : ArmyForCombat) : Loot :=
  let actualLoot := min (d.provisions * (1/5)) (getCarryCapacity a.units)
  ⟨⌊actualLoot * (2/5)⌋, ⌊actualLoot * (2/5)⌋, ⌊actualLoot * (1/5)⌋⟩

/-! ## Spec-side accessors and relations for the conservation claims -/

/-- Spec-side (C2): the conservation relation between a tracker list and a
later version of it — same length, and pointwise the same unit type, a
conserved `quantity + lost` sum, and a monotone `lost` counter. -/
def Preserves (a b : List UnitTracker) : Prop :=
  b.length = a.length ∧
  ∀ i : ℕ,
    (b.getD i default).unitType = (a.getD i default).unitType ∧
    (b.getD i default).quantity + (b.getD i default).lost =
      (a.getD i default).quantity + (a.getD i default).lost ∧
    (a.getD i default).lost ≤ (b.getD i default).lost

/-- Spec-side: the loss counter of the (first) tracker of a unit type. -/
def lostOfType (l : List UnitTracker) (k : String) : ℕ :=
  match l.find? (fun t => t.unitType == k) with
  | some t => t.lost
  | none => 0

/-- Spec-side: look a unit type up in a reported casualty list (0 when
absent). -/
def lookupLost (l : List LossEntry) (k : String) : ℕ :=
  match l.find? (fun e => e.unitType == k) with
  | some e => e.lost
  | none => 0

/-- The unit types of a tracker list are pairwise distinct. -/
def TypesNodup (l : List UnitTracker) : Prop :=
  (l.map (·.unitType)).Nodup

/-- The keys of a loss map are pairwise distinct (every map the engine
builds satisfies this, because `mapSet` overwrites in place). -/
def NodupKeys (m : LossMap) : Prop := (m.map (·.1)).Nodup

/-- Invariant carried through the round loop for the phase-breakdown
accounting: distinct tracker types on both sides, well-formed ranged-loss
accumulators, and each accumulated ranged loss bounded by the tracker's
current total loss. -/
def AccInv (st : BattleState) : Prop :=
  TypesNodup st.atkUnits ∧ TypesNodup st.defUnits ∧
  NodupKeys st.totalRangedAtkLost ∧ NodupKeys st.totalRangedDefLost ∧
  (∀ k, mapGetD st.totalRangedAtkLost k ≤ lostOfType st.atkUnits k) ∧
  (∀ k, mapGetD st.totalRangedDefLost k ≤ lostOfType st.defUnits k)

/-- Spec-side (C4): consume a single raw damage pool group by group over
an already speed-ordered list of unit groups — a group is fully wiped
when its HP pool (quantity × defense) is at most the remaining pool times
its ARCHER combat-triangle multiplier, consuming `hpPool / multiplier`
from the raw pool; otherwise it loses `floor(effectiveDamage / defense)`
units and the pool is exhausted.  Groups of unknown unit type are skipped
(cf. C8); an empty pool stops the consumption. -/
def specConsumePool : ℚ → List UnitTracker → List UnitTracker × ℚ
  | rem, [] => ([], rem)
  | rem, t :: ts =>
      if rem ≤ 0 then (t :: ts, rem)
      else
        match UNIT_STATS t.unitType with
        | none =>
            let p := specConsumePool rem ts
            (t :: p.1, p.2)
        | some s =>
            if t.quantity = 0 then
              let p := specConsumePool rem ts
              (t :: p.1, p.2)
            else
              let triangle := triangleOr1 "ARCHER" t.unitType
              let hpPool := (t.quantity : ℚ) * s.defense
              let effectiveDamage := rem * triangle
              if hpPool ≤ effectiveDamage then
                let p := specConsumePool (rem - hpPool / triangle) ts
                ({ t with quantity := 0, lost := t.lost + t.quantity } :: p.1,
                  p.2)
              else
                ({ t with
                    quantity := t.quantity - Int.toNat ⌊effectiveDamage / s.defense⌋,
                    lost := t.lost + Int.toNat ⌊effectiveDamage / s.defense⌋ } :: ts,
                  0)

/-! ## World tick engine (`part_001` / `tick.ts`)

The repository holds two versions of the tick engine; the extended one
(with lumber, unit upkeep and PvP arrivals) is embedded here.  Modelling
conventions for this section:

* Timestamps (`Date`) are milliseconds since epoch as exact rationals;
  `a.getTime() - b.getTime()` is plain subtraction.
* `Math.random()` draws are taken, in source order, from an explicit
  stream (`List ℚ`); an exhausted stream yields `0`.
* Database ids are `ℕ`; where the source lets the database generate a
  fresh id on `create`, the model draws from a `nextId` counter.  The
  source only ever compares ids for equality.  The JS truthiness test on
  a nullable foreign key (a cuid string) is modelled as presence of the
  `Option`.
* The source mirrors every write to the step-3 in-memory settlement
  snapshot (`existing.quantity += …`, `push(created)`), keeping the
  snapshot equal to the transaction state for every row it re-reads
  later; the embedding reads the current state directly.
* The non-null assertions `army.departedAt!` / `army.arrivesAt!` are
  modelled with a `0` default (the assertions are only reached for
  armies the game creates with both fields set).
* `gameEvent.create` serialises its payload with `JSON.stringify`; the
  embedding keeps the serialised values as a typed payload
  (`GameEventData`) instead of a rendered JSON string. -/

def TICK_INTERVAL_MS : ℚ := 30000

/-- Minimum elapsed time (ms) before another tick is processed for a
player. -/
def DEBOUNCE_MS : ℚ := 5000

def BASE_ORE_PER_TICK : ℚ := 5

def BASE_PROVISIONS_PER_TICK : ℚ := 8

def BASE_GOLD_PER_TICK : ℚ := 2

def BASE_MANA_PER_TICK : ℚ := 0

/-- Modelled from the spec: `BASE_LUMBER_PER_TICK` is imported by the
tick engine from a constants version not included under `src/`; the spec
gives no value.  The choice is irrelevant to every claim proved here. -/
def BASE_LUMBER_PER_TICK : ℚ := 3

/-- `MINE_LEVEL_MULTIPLIERS` (levels 1–5); absent levels yield `none`
and call sites apply the source's `?? 1` fallback. -/
def MINE_LEVEL_MULTIPLIERS : ℕ → Option ℚ
  | 1 => some 1
  | 2 => some (6/5)
  | 3 => some (7/5)
  | 4 => some (33/20)
  | 5 => some 2
  | _ => none

def CROP_MASTERY_MULTIPLIERS : ℕ → Option ℚ
  | 0 => some 1
  | 1 => some (13/10)
  | 2 => some (8/5)
  | 3 => some 2
  | 4 => some (5/2)
  | 5 => some 3
  | _ => none

/-- The sawmill, forestry, farm and upkeep tables are imported by the
tick engine but absent from the constants version under `src/`; their
values are taken from the local tables of the repository's economy
simulation harness `sim.ts` (`SAWMILL_BASE_PER_TICK`,
`SAWMILL_LEVEL_MULT`, `FORESTRY_MULT`, `FARM_LEVEL_MULT`,
`UNIT_UPKEEP`).  No theorem below depends on these values. -/
def SAWMILL_BASE_PER_TICK : ℚ := 4

def SAWMILL_LEVEL_MULTIPLIERS : ℕ → Option ℚ
  | 0 => some 0
  | 1 => some 1
  | 2 => some (13/10)
  | 3 => some (8/5)
  | 4 => some 2
  | 5 => some (5/2)
  | 6 => some 3
  | 7 => some (18/5)
  | 8 => some (43/10)
  | _ => none

def FORESTRY_MULTIPLIERS : ℕ → Option ℚ
  | 0 => some 1
  | 1 => some (6/5)
  | 2 => some (7/5)
  | 3 => some (17/10)
  | 4 => some 2
  | 5 => some (5/2)
  | _ => none

def FARM_LEVEL_MULTIPLIERS : ℕ → Option ℚ
  | 0 => some 1
  | 1 => some 1
  | 2 => some (13/10)
  | 3 => some (8/5)
  | 4 => some 2
  | 5 => some (5/2)
  | _ => none

def UNIT_UPKEEP_PER_TICK : String → Option ℚ
  | "INFANTRY" => some (1/2)
  | "ARCHER" => some (1/2)
  | "HEAVY_INFANTRY" => some (4/5)
  | "WARDEN" => some (3/10)
  | "CARAVAN" => some 1
  | "SCOUT" => some (3/10)
  | "CAVALRY" => some (3/2)
  | _ => none

def PVP_LOOT_PERCENT : ℚ := 3/20

def PROTECTION_DURATION_MS : ℚ := 86400000

/-- `PlayerResources`: resource amounts, caps, and the `lastTickAt`
checkpoint (milliseconds since epoch, modelled as an exact rational). -/
structure PlayerResources where
  ore : ℚ
  provisions : ℚ
  gold : ℚ
  lumber : ℚ
  mana : ℚ
  oreCap : ℚ
  provisionsCap : ℚ
  goldCap : ℚ
  lumberCap : ℚ
  manaCap : ℚ
  lastTickAt : ℚ
deriving DecidableEq

/-- A `Building` row (the fields the tick reads or writes). -/
structure Building where
  id : ℕ
  type : String
  level : ℕ
  isBuilt : Bool
  upgradeStartedAt : Option ℚ
  upgradeFinishAt : Option ℚ
deriving DecidableEq

/-- A `UnitQueue` row. -/
structure UnitQueue where
  id : ℕ
  unitType : String
  quantity : ℕ
  finishAt : ℚ
deriving DecidableEq

/-- A `SettlementUnits` (garrison) row. -/
structure SettlementUnits where
  id : ℕ
  unitType : String
  quantity : ℕ
deriving DecidableEq

/-- A `Defense` row. -/
structure Defense where
  id : ℕ
  type : String
  level : ℕ
  upgradeStartedAt : Option ℚ
  upgradeFinishAt : Option ℚ
deriving DecidableEq

/-- A `Settlement` row with its included relations. -/
structure Settlement where
  id : ℕ
  playerId : String
  tileId : ℕ
  name : String
  protectedUntil : Option ℚ
  buildings : List Building
  unitQueues : List UnitQueue
  settlementUnits : List SettlementUnits
  defenses : List Defense
deriving DecidableEq

/-- An `ActiveResearch` row. -/
structure ActiveResearch where
  id : ℕ
  playerId : String
  track : String
  finishAt : ℚ
deriving DecidableEq

/-- A `ResearchState` row. -/
structure ResearchState where
  id : ℕ
  playerId : String
  track : String
  level : ℕ
deriving DecidableEq

/-- An `ArmyUnit` row. -/
structure ArmyUnit where
  id : ℕ
  unitType : String
  quantity : ℕ
deriving DecidableEq

/-- An `Army` row with its included `armyUnits`. -/
structure Army where
  id : ℕ
  playerId : String
  name : String
  status : String
  fromTileId : ℕ
  toTileId : Option ℕ
  departedAt : Option ℚ
  arrivesAt : Option ℚ
  provisions : ℚ
  armyUnits : List ArmyUnit
deriving DecidableEq

/-- An `NPCFaction` row (the combat generator's `NPCFaction` above keeps
only the two fields it reads; the row also carries id and name). -/
structure NPCFactionRow where
  id : ℕ
  name : String
  strength : ℕ
  aggressionLevel : ℚ
deriving DecidableEq

/-- A `MapTile` row (the fields the tick reads or writes). -/
structure MapTile where
  id : ℕ
  x : ℤ
  y : ℤ
  npcFactionId : Option ℕ
  isHideout : Bool
  hasSettlement : Bool
  ownerId : Option String
deriving DecidableEq

/-- `ScoutEstimate` from `npc.ts` (the nested `resourceEstimate` object
is flattened into the four `…Estimate` fields). -/
structure ScoutEstimate where
  factionName : String
  estimatedTroops : List (String × ℤ)
  hasDefenses : Bool
  oreEstimate : ℤ
  provisionsEstimate : ℤ
  goldEstimate : ℤ
  lumberEstimate : ℤ
deriving DecidableEq

/-- PvP loot record `{ore, provisions, gold, lumber}` (floored). -/
structure PvpLoot where
  ore : ℤ
  provisions : ℤ
  gold : ℤ
  lumber : ℤ
deriving DecidableEq

/-- The structured content of each `gameEvent.create` `data` payload,
one constructor per event shape in the source. -/
inductive GameEventData where
  | researchComplete (track : String) (newLevel : ℕ)
  | trainingComplete (settlementId : ℕ) (unitType : String) (quantity : ℕ)
  | armyReturned (armyId : ℕ)
  | protectionBounce (armyId : ℕ) (toTileId : Option ℕ) (reason : String)
  | scoutLost (toTileId : Option ℕ) (tileX tileY : Option ℤ)
  | scoutReport (toTileId : Option ℕ) (tileX tileY : Option ℤ)
      (report : ScoutEstimate)
  | battleWonNpc (armyId : ℕ) (toTileId : Option ℕ) (tileX tileY : ℤ)
      (factionName : String) (isHideout : Bool)
      (defenderDefenses : List DefenseStructure)
      (attackerLosses defenderLosses : List LossEntry) (loot : Loot)
      (phases : RangedReport × MeleeReport)
  | battleLostNpc (armyId : ℕ) (toTileId : Option ℕ) (tileX tileY : ℤ)
      (factionName : String)
      (attackerLosses defenderLosses : List LossEntry)
      (phases : RangedReport × MeleeReport)
  | battleWonPvp (armyId : ℕ) (toTileId : Option ℕ) (tileX tileY : ℤ)
      (defenderPlayerId : String)
      (attackerLosses defenderLosses : List LossEntry) (loot : PvpLoot)
      (defensesDestroyed : ℕ) (phases : RangedReport × MeleeReport)
  | settlementAttacked (tileX tileY : ℤ) (attackerPlayerId : String)
      (defenderLosses : List LossEntry) (lootStolen : PvpLoot)
      (defensesDestroyed : ℕ) (protectedUntil : ℚ)
  | battleLostPvp (armyId : ℕ) (toTileId : Option ℕ) (tileX tileY : ℤ)
      (defenderPlayerId : String)
      (attackerLosses defenderLosses : List LossEntry)
      (phases : RangedReport × MeleeReport)
  | settlementDefended (tileX tileY : ℤ) (attackerPlayerId : String)
      (defenderLosses : List LossEntry) (attackerDestroyed : Bool)
  | armyArrived (armyId : ℕ) (toTileId : Option ℕ)
deriving DecidableEq

/-- A `GameEvent` row. -/
structure GameEvent where
  playerId : String
  type : String
  message : String
  data : GameEventData
deriving DecidableEq

/-- The slice of the database the tick transaction reads and writes. -/
structure GameDB where
  playerResources : List (String × PlayerResources)
  settlements : List Settlement
  activeResearch : List ActiveResearch
  researchStates : List ResearchState
  armies : List Army
  mapTiles : List MapTile
  npcFactions : List NPCFactionRow
  gameEvents : List GameEvent
  nextId : ℕ
deriving DecidableEq

/-- One `Math.random()` draw from the explicit stream. -/
def randDraw : List ℚ → ℚ × List ℚ
  | [] => (0, [])
  | x :: xs => (x, xs)

/-! ### Row-level database operations -/

/-- `tx.playerResources.findUnique({ where: { playerId } })`. -/
def findRes (db : GameDB) (pid : String) : Option PlayerResources :=
  (db.playerResources.find? (fun p => p.1 == pid)).map (·.2)

/-- `tx.playerResources.update({ where: { playerId } })`: partial update
of the current row. -/
def updateRes (db : GameDB) (pid : String)
    (f : PlayerResources → PlayerResources) : GameDB :=
  { db with playerResources :=
      db.playerResources.map (fun p => if p.1 == pid then (p.1, f p.2) else p) }

def updateBuilding (db : GameDB) (bid : ℕ) (f : Building → Building) :
    GameDB :=
  { db with settlements := db.settlements.map (fun s =>
      { s with buildings :=
          s.buildings.map (fun b => if b.id == bid then f b else b) }) }

def updateSettlementUnit (db : GameDB) (suid : ℕ)
    (f : SettlementUnits → SettlementUnits) : GameDB :=
  { db with settlements := db.settlements.map (fun s =>
      { s with settlementUnits :=
          s.settlementUnits.map (fun u => if u.id == suid then f u else u) }) }

/-- `tx.settlementUnits.create` with a fresh id. -/
def createSettlementUnit (db : GameDB) (sid : ℕ) (unitType : String)
    (quantity : ℕ) : GameDB :=
  { db with
      settlements := db.settlements.map (fun s =>
        if s.id == sid then
          { s with settlementUnits :=
              s.settlementUnits ++ [⟨db.nextId, unitType, quantity⟩] }
        else s)
      nextId := db.nextId + 1 }

def deleteUnitQueue (db : GameDB) (qid : ℕ) : GameDB :=
  { db with settlements := db.settlements.map (fun s =>
      { s with unitQueues := s.unitQueues.filter (fun q => ! (q.id == qid)) }) }

def updateResearchState (db : GameDB) (rid : ℕ)
    (f : ResearchState → ResearchState) : GameDB :=
  { db with researchStates :=
      db.researchStates.map (fun r => if r.id == rid then f r else r) }

def deleteActiveResearch (db : GameDB) (aid : ℕ) : GameDB :=
  { db with activeResearch := db.activeResearch.filter (fun a => ! (a.id == aid)) }

def updateArmy (db : GameDB) (aid : ℕ) (f : Army → Army) : GameDB :=
  { db with armies := db.armies.map (fun a => if a.id == aid then f a else a) }

/-- `tx.armyUnit.deleteMany({ where: { armyId } })` followed by
`tx.army.delete({ where: { id } })`. -/
def deleteArmy (db : GameDB) (aid : ℕ) : GameDB :=
  { db with armies := db.armies.filter (fun a => ! (a.id == aid)) }

def updateArmyUnit (db : GameDB) (auid : ℕ) (f : ArmyUnit → ArmyUnit) :
    GameDB :=
  { db with armies := db.armies.map (fun a =>
      { a with armyUnits :=
          a.armyUnits.map (fun u => if u.id == auid then f u else u) }) }

def deleteArmyUnit (db : GameDB) (auid : ℕ) : GameDB :=
  { db with armies := db.armies.map (fun a =>
      { a with armyUnits := a.armyUnits.filter (fun u => ! (u.id == auid)) }) }

def updateTile (db : GameDB) (tid : ℕ) (f : MapTile → MapTile) : GameDB :=
  { db with mapTiles := db.mapTiles.map (fun t => if t.id == tid then f t else t) }

def updateDefense (db : GameDB) (did : ℕ) (f : Defense → Defense) : GameDB :=
  { db with settlements := db.settlements.map (fun s =>
      { s with defenses :=
          s.defenses.map (fun d => if d.id == did then f d else d) }) }

def updateSettlementRow (db : GameDB) (sid : ℕ)
    (f : Settlement → Settlement) : GameDB :=
  { db with settlements :=
      db.settlements.map (fun s => if s.id == sid then f s else s) }

def addEvent (db : GameDB) (e : GameEvent) : GameDB :=
  { db with gameEvents := db.gameEvents ++ [e] }

def findTile (db : GameDB) (tid : ℕ) : Option MapTile :=
  db.mapTiles.find? (fun t => t.id == tid)

def findFaction (db : GameDB) (fid : ℕ) : Option NPCFactionRow :=
  db.npcFactions.find? (fun f => f.id == fid)

def findSettlementRow (db : GameDB) (sid : ℕ) : Option Settlement :=
  db.settlements.find? (fun s => s.id == sid)

/-- The `settlements` relation included on a `mapTile` lookup. -/
def tileSettlements (db : GameDB) (tid : ℕ) : List Settlement :=
  db.settlements.filter (fun s => s.tileId == tid)

/-! ### Scout estimates and PvP carry capacity -/

/-- `generateScoutEstimate` from `npc.ts`; one random draw per estimated
troop row, then one each for ore, provisions, gold and lumber, in source
order (`fuzz = 0.8 + Math.random() * 0.4`). -/
def generateScoutEstimate (faction : NPCFactionRow) (isHideout : Bool)
    (rnd : List ℚ) : ScoutEstimate × List ℚ :=
  let defenders :=
    generateNPCDefenders ⟨faction.strength, faction.aggressionLevel⟩ isHideout
  let troopsAcc := defenders.units.foldl
    (fun (acc : List (String × ℤ) × List ℚ) u =>
      let d := randDraw acc.2
      let fuzz := 4/5 + d.1 * (2/5)
      (acc.1 ++ [(u.unitType, jsRound ((u.quantity : ℚ) * fuzz))], d.2))
    ([], rnd)
  let s : ℚ := faction.strength
  let d1 := randDraw troopsAcc.2
  let d2 := randDraw d1.2
  let d3 := randDraw d2.2
  let d4 := randDraw d3.2
  (⟨faction.name, troopsAcc.1, isHideout,
      jsRound (s * 100 * (4/5 + d1.1 * (2/5))),
      jsRound (s * 150 * (4/5 + d2.1 * (2/5))),
      jsRound (s * 50 * (4/5 + d3.1 * (2/5))),
      jsRound (s * 80 * (4/5 + d4.1 * (2/5)))⟩, d4.2)

/-- `getCarryCapacityFromArmyUnits` (for PvP loot). -/
def getCarryCapacityFromArmyUnits (armyUnits : List ArmyUnit) : ℚ :=
  armyUnits.foldl
    (fun capacity u =>
      match UNIT_STATS u.unitType with
      | some stats =>
          if 0 < stats.carryCapacity then
            capacity + stats.carryCapacity * u.quantity
          else capacity
      | none => capacity)
    0

/-- `(${destTile?.x ?? '?'}, ${destTile?.y ?? '?'})`. -/
def coordStr (t : Option MapTile) : String :=
  match t with
  | some tile => "(" ++ toString tile.x ++ ", " ++ toString tile.y ++ ")"
  | none => "(?, ?)"

/-! ### Tick steps 5–8 -/

/-- Step 5: complete every building whose upgrade has finished. -/
def completeBuildings (completed : List Building) (db : GameDB) : GameDB :=
  completed.foldl
    (fun w b =>
      updateBuilding w b.id (fun old =>
        { old with
            isBuilt := true
            level := b.level + 1
            upgradeStartedAt := none
            upgradeFinishAt := none }))
    db

/-- Step 6: complete finished research (upsert the state row, delete the
active-research row, record the event). -/
def completeResearch (now : ℚ) (pid : String)
    (activeResearch : Option ActiveResearch)
    (researchStates : List ResearchState) (db : GameDB) : GameDB :=
  match activeResearch with
  | none => db
  | some ar =>
      if ar.finishAt ≤ now then
        let existingState := researchStates.find? (fun r => r.track == ar.track)
        let db1 := match existingState with
          | some st =>
              updateResearchState db st.id (fun old =>
                { old with level := st.level + 1 })
          | none =>
              { db with
                  researchStates :=
                    db.researchStates ++ [⟨db.nextId, pid, ar.track, 1⟩]
                  nextId := db.nextId + 1 }
        let db2 := deleteActiveResearch db1 ar.id
        addEvent db2 ⟨pid, "RESEARCH_COMPLETE",
          "Research in " ++ ar.track ++ " has completed.",
          .researchComplete ar.track
            (((existingState.map (·.level)).getD 0) + 1)⟩
      else db

/-- Step 7 for one settlement: complete its finished training queues
(find-or-create the garrison row per unit type, delete the queue, record
the event). -/
def completeQueuesFor (now : ℚ) (pid : String) (s : Settlement)
    (db : GameDB) : GameDB :=
  (s.unitQueues.filter (fun q => decide (q.finishAt ≤ now))).foldl
    (fun w q =>
      let current := (findSettlementRow w s.id).getD s
      let w1 := match current.settlementUnits.find?
          (fun u => u.unitType == q.unitType) with
        | some existingUnits =>
            updateSettlementUnit w existingUnits.id (fun old =>
              { old with quantity := existingUnits.quantity + q.quantity })
        | none => createSettlementUnit w s.id q.unitType q.quantity
      let w2 := deleteUnitQueue w1 q.id
      addEvent w2 ⟨pid, "TRAINING_COMPLETE",
        toString q.quantity ++ "x " ++ q.unitType ++
          " training complete at " ++ s.name ++ ".",
        .trainingComplete s.id q.unitType q.quantity⟩)
    db

/-- Step 7 over all of the player's settlements. -/
def completeQueues (now : ℚ) (pid : String) (settlements : List Settlement)
    (db : GameDB) : GameDB :=
  settlements.foldl (fun w s => completeQueuesFor now pid s w) db

/-- Merge surviving army units into a settlement's garrison
(find-or-create per unit type; zero-quantity rows skipped). -/
def mergeArmyUnits (sid : ℕ) (units : List ArmyUnit) (db : GameDB) :
    GameDB :=
  units.foldl
    (fun w au =>
      if au.quantity = 0 then w
      else
        match (findSettlementRow w sid).bind (fun s =>
            s.settlementUnits.find? (fun u => u.unitType == au.unitType)) with
        | some existing =>
            updateSettlementUnit w existing.id (fun old =>
              { old with quantity := existing.quantity + au.quantity })
        | none => createSettlementUnit w sid au.unitType au.quantity)
    db

/-- A `RETURNING` army arriving home: merge its units into the home
settlement (found by `tileId === army.fromTileId` among the player's
settlements), delete the army, record the event. -/
def returningArrival (pid : String) (army : Army) (db : GameDB) : GameDB :=
  let db1 := match (db.settlements.filter (fun s => s.playerId == pid)).find?
      (fun s => s.tileId == army.fromTileId) with
    | some home => mergeArmyUnits home.id army.armyUnits db
    | none => db
  let db2 := deleteArmy db1 army.id
  addEvent db2 ⟨pid, "ARMY_RETURNED",
    "Army \"" ++ army.name ++ "\" has returned home.",
    .armyReturned army.id⟩

/-- A scout-mission arrival: one random draw against
`aggressionLevel * 0.05` decides loss; on success a report event is
recorded and the scout army turns around. -/
def scoutArrival (now : ℚ) (pid : String) (army : Army)
    (destTile : Option MapTile) (faction : Option NPCFactionRow)
    (acc : GameDB × List ℚ) : GameDB × List ℚ :=
  let db := acc.1
  let lossChance := match faction with
    | some f => f.aggressionLevel * (1/20)
    | none => 0
  let d := randDraw acc.2
  if d.1 < lossChance then
    let db1 := deleteArmy db army.id
    (addEvent db1 ⟨pid, "SCOUT_LOST",
      "Scout mission to " ++ coordStr destTile ++
        " was intercepted. The scout was lost.",
      .scoutLost army.toTileId (destTile.map (·.x)) (destTile.map (·.y))⟩,
      d.2)
  else
    let rep : ScoutEstimate × List ℚ := match faction with
      | some f =>
          generateScoutEstimate f
            ((destTile.map (fun t => t.isHideout)).getD false) d.2
      | none => (⟨"None", [], false, 0, 0, 0, 0⟩, d.2)
    let db1 := addEvent db ⟨pid, "SCOUT_REPORT",
      "Scout report from " ++ coordStr destTile ++ ": " ++
        (match faction with
          | some f => f.name ++ " forces spotted."
          | none => "Area is clear."),
      .scoutReport army.toTileId (destTile.map (·.x)) (destTile.map (·.y))
        rep.1⟩
    let originalTripMs := (army.arrivesAt.getD 0) - (army.departedAt.getD 0)
    (updateArmy db1 army.id (fun a =>
      { a with
          status := "RETURNING"
          toTileId := some army.fromTileId
          departedAt := some now
          arrivesAt := some (now + originalTripMs) }), rep.2)

/-- Apply the attacker's combat losses to its army units (delete a row
that drops to `0` or below, update it otherwise); this code appears
verbatim in both the NPC and the PvP win branches. -/
def applyAttackerLosses (army : Army) (losses : List LossEntry)
    (db : GameDB) : GameDB :=
  losses.foldl
    (fun w loss =>
      match army.armyUnits.find? (fun u => u.unitType == loss.unitType) with
      | some armyUnit =>
          if armyUnit.quantity ≤ loss.lost then deleteArmyUnit w armyUnit.id
          else
            updateArmyUnit w armyUnit.id (fun old =>
              { old with quantity := armyUnit.quantity - loss.lost })
      | none => w)
    db

/-- A marching army arriving on an NPC tile: resolve combat; on a win
apply attacker losses, grant loot (the round engine's `result.loot` has
no `lumber` field, so the source's `result.loot.lumber > 0` check and
`lumber` increment read `undefined` and are inert), clear the tile's NPC
and turn the army around; on a loss destroy the army. -/
def npcArrival (now : ℚ) (pid : String) (army : Army) (tile : MapTile)
    (faction : NPCFactionRow) (db : GameDB) : GameDB :=
  let npcDefenders :=
    generateNPCDefenders ⟨faction.strength, faction.aggressionLevel⟩
      tile.isHideout
  let attackerArmy : ArmyForCombat :=
    ⟨army.armyUnits.map (fun u => ⟨u.unitType, u.quantity⟩),
      army.provisions, false, none, none⟩
  let result := resolveCombat attackerArmy npcDefenders
  if result.attackerWins then
    let db1 := applyAttackerLosses army result.attackerLosses db
    let db2 :=
      if 0 < result.loot.ore ∨ 0 < result.loot.provisions ∨
          0 < result.loot.gold then
        updateRes db1 pid (fun cur =>
          { cur with
              ore := cur.ore + result.loot.ore
              provisions := cur.provisions + result.loot.provisions
              gold := cur.gold + result.loot.gold })
      else db1
    let db3 := updateTile db2 tile.id (fun t =>
      { t with npcFactionId := none, isHideout := false })
    let originalTripMs := (army.arrivesAt.getD 0) - (army.departedAt.getD 0)
    let db4 := updateArmy db3 army.id (fun a =>
      { a with
          status := "RETURNING"
          toTileId := some army.fromTileId
          departedAt := some now
          arrivesAt := some (now + originalTripMs) })
    addEvent db4 ⟨pid, "BATTLE_WON",
      "Victory! Army \"" ++ army.name ++ "\" defeated " ++ faction.name ++
        " at (" ++ toString tile.x ++ ", " ++ toString tile.y ++ ").",
      .battleWonNpc army.id army.toTileId tile.x tile.y faction.name
        tile.isHideout ((npcDefenders.defenseStructures).getD [])
        result.attackerLosses result.defenderLosses result.loot
        (result.ranged, result.melee)⟩
  else
    let db1 := deleteArmy db army.id
    addEvent db1 ⟨pid, "BATTLE_LOST",
      "Defeat! Army \"" ++ army.name ++ "\" was destroyed by " ++
        faction.name ++ " at (" ++ toString tile.x ++ ", " ++
        toString tile.y ++ ").",
      .battleLostNpc army.id army.toTileId tile.x tile.y faction.name
        result.attackerLosses result.defenderLosses
        (result.ranged, result.melee)⟩

/-- Apply the defender's combat losses to the target settlement's
garrison rows (`Math.max(0, remaining)` is truncated subtraction). -/
def pvpDefenderLosses (target : Settlement) (losses : List LossEntry)
    (db : GameDB) : GameDB :=
  losses.foldl
    (fun w loss =>
      match target.settlementUnits.find?
          (fun u => u.unitType == loss.unitType) with
      | some sUnit =>
          updateSettlementUnit w sUnit.id (fun old =>
            { old with quantity := sUnit.quantity - loss.lost })
      | none => w)
    db

/-- PvP loot: `PVP_LOOT_PERCENT` of the defender's live resources,
floored, scaled down proportionally when the total exceeds the carry
capacity (the source names the scale `ratio`). -/
def pvpLootOf (attackerWins : Bool)
    (defenderResources : Option PlayerResources) (carryCapacity : ℚ) :
    PvpLoot :=
  match attackerWins, defenderResources with
  | true, some dr =>
      if 0 < carryCapacity then
        let rawOre := dr.ore * PVP_LOOT_PERCENT
        let rawProvisions := dr.provisions * PVP_LOOT_PERCENT
        let rawGold := dr.gold * PVP_LOOT_PERCENT
        let rawLumber := dr.lumber * PVP_LOOT_PERCENT
        let totalRawLoot := rawOre + rawProvisions + rawGold + rawLumber
        if 0 < totalRawLoot then
          if totalRawLoot ≤ carryCapacity then
            ⟨⌊rawOre⌋, ⌊rawProvisions⌋, ⌊rawGold⌋, ⌊rawLumber⌋⟩
          else
            let lootScale := carryCapacity / totalRawLoot
            ⟨⌊rawOre * lootScale⌋, ⌊rawProvisions * lootScale⌋,
              ⌊rawGold * lootScale⌋, ⌊rawLumber * lootScale⌋⟩
        else ⟨0, 0, 0, 0⟩
      else ⟨0, 0, 0, 0⟩
  | _, _ => ⟨0, 0, 0, 0⟩

/-- Destroy all of the target settlement's built defenses (level to 0,
upgrades cancelled) after a PvP loss. -/
def destroyDefenses (defenses : List Defense) (db : GameDB) : GameDB :=
  defenses.foldl
    (fun w defense =>
      if 0 < defense.level then
        updateDefense w defense.id (fun old =>
          { old with
              level := 0
              upgradeStartedAt := none
              upgradeFinishAt := none })
      else w)
    db

/-- A marching army arriving on another player's settlement tile:
protection bounce, or PvP combat with loot transfer, defense
destruction and protection on a win, army destruction on a loss. -/
def pvpArrival (now : ℚ) (pid : String) (army : Army) (tile : MapTile)
    (owner : String) (db : GameDB) : GameDB :=
  let targetSettlement := (tileSettlements db tile.id).head?
  let underProtection := match targetSettlement with
    | some s => match s.protectedUntil with
      | some p => decide (now < p)
      | none => false
    | none => false
  if underProtection then
    let originalTripMs := (army.arrivesAt.getD 0) - (army.departedAt.getD 0)
    let db1 := updateArmy db army.id (fun a =>
      { a with
          status := "RETURNING"
          toTileId := some army.fromTileId
          departedAt := some now
          arrivesAt := some (now + originalTripMs) })
    addEvent db1 ⟨pid, "ARMY_RETURNED",
      "Army \"" ++ army.name ++ "\" could not attack — settlement at (" ++
        toString tile.x ++ ", " ++ toString tile.y ++
        ") is under protection. Returning home.",
      .protectionBounce army.id army.toTileId "PROTECTION_ACTIVE"⟩
  else
    let defenderUnits : List UnitGroup := match targetSettlement with
      | some s =>
          (s.settlementUnits.filter (fun u => decide (0 < u.quantity))).map
            (fun u => ⟨u.unitType, u.quantity⟩)
      | none => []
    let defenseStructures : List DefenseStructure := match targetSettlement with
      | some s =>
          (s.defenses.filter (fun d => decide (0 < d.level))).map
            (fun d => ⟨d.type, d.level⟩)
      | none => []
    let defenderResources := findRes db owner
    let defenderMana := (defenderResources.map (·.mana)).getD 0
    let defenderArmy : ArmyForCombat :=
      ⟨defenderUnits, 0, true, some defenseStructures, some defenderMana⟩
    let attackerArmy : ArmyForCombat :=
      ⟨army.armyUnits.map (fun u => ⟨u.unitType, u.quantity⟩),
        army.provisions, false, none, none⟩
    let result := resolveCombat attackerArmy defenderArmy
    let carryCapacity := getCarryCapacityFromArmyUnits army.armyUnits
    let loot := pvpLootOf result.attackerWins defenderResources carryCapacity
    if result.attackerWins then
      let db1 := applyAttackerLosses army result.attackerLosses db
      let db2 := match targetSettlement with
        | some target =>
            let w1 := pvpDefenderLosses target result.defenderLosses db1
            let w2 := destroyDefenses target.defenses w1
            updateSettlementRow w2 target.id (fun old =>
              { old with protectedUntil := some (now + PROTECTION_DURATION_MS) })
        | none => db1
      let db3 :=
        if 0 < loot.ore ∨ 0 < loot.provisions ∨ 0 < loot.gold ∨
            0 < loot.lumber then
          let w1 := updateRes db2 owner (fun cur =>
            { cur with
                ore := cur.ore - loot.ore
                provisions := cur.provisions - loot.provisions
                gold := cur.gold - loot.gold
                lumber := cur.lumber - loot.lumber })
          updateRes w1 pid (fun cur =>
            { cur with
                ore := cur.ore + loot.ore
                provisions := cur.provisions + loot.provisions
                gold := cur.gold + loot.gold
                lumber := cur.lumber + loot.lumber })
        else db2
      let originalTripMs := (army.arrivesAt.getD 0) - (army.departedAt.getD 0)
      let db4 := updateArmy db3 army.id (fun a =>
        { a with
            status := "RETURNING"
            toTileId := some army.fromTileId
            departedAt := some now
            arrivesAt := some (now + originalTripMs) })
      let db5 := addEvent db4 ⟨pid, "BATTLE_WON",
        "Victory! Army \"" ++ army.name ++
          "\" conquered the settlement at (" ++ toString tile.x ++ ", " ++
          toString tile.y ++ ").",
        .battleWonPvp army.id army.toTileId tile.x tile.y owner
          result.attackerLosses result.defenderLosses loot
          defenseStructures.length (result.ranged, result.melee)⟩
      addEvent db5 ⟨owner, "SETTLEMENT_ATTACKED",
        "Your settlement at (" ++ toString tile.x ++ ", " ++
          toString tile.y ++ ") was attacked and defeated!",
        .settlementAttacked tile.x tile.y pid result.defenderLosses loot
          defenseStructures.length (now + PROTECTION_DURATION_MS)⟩
    else
      let db1 := match targetSettlement with
        | some target => pvpDefenderLosses target result.defenderLosses db
        | none => db
      let db2 := deleteArmy db1 army.id
      let db3 := addEvent db2 ⟨pid, "BATTLE_LOST",
        "Defeat! Army \"" ++ army.name ++ "\" was destroyed attacking (" ++
          toString tile.x ++ ", " ++ toString tile.y ++ ").",
        .battleLostPvp army.id army.toTileId tile.x tile.y owner
          result.attackerLosses result.defenderLosses
          (result.ranged, result.melee)⟩
      addEvent db3 ⟨owner, "SETTLEMENT_DEFENDED",
        "Your settlement at (" ++ toString tile.x ++ ", " ++
          toString tile.y ++ ") successfully repelled an attack!",
        .settlementDefended tile.x tile.y pid result.defenderLosses true⟩

/-- A marching army arriving on an empty or own tile. -/
def peacefulArrival (pid : String) (army : Army) (db : GameDB) : GameDB :=
  let db1 := updateArmy db army.id (fun a => { a with status := "IDLE" })
  addEvent db1 ⟨pid, "ARMY_ARRIVED",
    "Army \"" ++ army.name ++ "\" has arrived at its destination.",
    .armyArrived army.id army.toTileId⟩

/-- Step 8 for one army: skip if not yet arrived; `RETURNING` armies go
home; otherwise the destination tile is re-read from the current state
and the scout / NPC-combat / PvP / peaceful branch is taken in source
order. -/
def armyArrivalStep (now : ℚ) (pid : String) (acc : GameDB × List ℚ)
    (army : Army) : GameDB × List ℚ :=
  let db := acc.1
  match army.arrivesAt with
  | none => acc
  | some arrivesAt =>
      if now < arrivesAt then acc
      else if army.status == "RETURNING" then
        (returningArrival pid army db, acc.2)
      else
        let isScoutMission := army.name.startsWith "Scout Mission"
        let destTile := army.toTileId.bind (fun tid => findTile db tid)
        if isScoutMission then
          scoutArrival now pid army destTile
            (destTile.bind (fun t =>
              t.npcFactionId.bind (fun fid => findFaction db fid))) acc
        else
          match destTile.bind (fun t =>
              (t.npcFactionId.bind (fun fid => findFaction db fid)).map
                (fun f => (t, f))) with
          | some (tile, faction) => (npcArrival now pid army tile faction db, acc.2)
          | none =>
              match destTile with
              | some tile =>
                  if tile.hasSettlement then
                    match tile.ownerId with
                    | some owner =>
                        if owner == pid then (peacefulArrival pid army db, acc.2)
                        else (pvpArrival now pid army tile owner db, acc.2)
                    | none => (peacefulArrival pid army db, acc.2)
                  else (peacefulArrival pid army db, acc.2)
              | none => (peacefulArrival pid army db, acc.2)

/-- Step 8 over all of the player's armies. -/
def armyArrivals (now : ℚ) (pid : String) (armies : List Army)
    (db : GameDB) (rnd : List ℚ) : GameDB × List ℚ :=
  armies.foldl (armyArrivalStep now pid) (db, rnd)

/-! ### The tick itself -/

/-- Step 3 load: the player's settlements. -/
def tickSettlements (db : GameDB) (pid : String) : List Settlement :=
  db.settlements.filter (fun s => s.playerId == pid)

/-- Step 3 load: the player's active research. -/
def tickActiveResearch (db : GameDB) (pid : String) : Option ActiveResearch :=
  db.activeResearch.find? (fun a => a.playerId == pid)

/-- Step 3 load: the player's research states. -/
def tickResearchStates (db : GameDB) (pid : String) : List ResearchState :=
  db.researchStates.filter (fun r => r.playerId == pid)

/-- Step 3 load: the player's `MARCHING`, `RETURNING` and `IDLE`
armies. -/
def tickArmies (db : GameDB) (pid : String) : List Army :=
  db.armies.filter (fun a => a.playerId == pid &&
    (a.status == "MARCHING" || a.status == "RETURNING" || a.status == "IDLE"))

/-- Step 5's filter: buildings whose `upgradeFinishAt` has passed. -/
def tickCompletedBuildings (now : ℚ) (db : GameDB) (pid : String) :
    List Building :=
  ((tickSettlements db pid).bind (fun s => s.buildings)).filter (fun b =>
    match b.upgradeFinishAt with
    | some f => decide (f ≤ now)
    | none => false)

/-- Steps 3–9 of `processPlayerTick`, run after the debounce guard:
resource accrual (step 4, applied in step 9 from the step-1 snapshot),
building/research/queue completion (5–7), army arrivals (8), and the
final resources-and-`lastTickAt` write (9). -/
def processTickBody (now : ℚ) (playerId : String) (rnd : List ℚ)
    (db : GameDB) (resources : PlayerResources) : GameDB :=
  let elapsedMs := now - resources.lastTickAt
  let tickMultiplier := elapsedMs / TICK_INTERVAL_MS
  let settlements := tickSettlements db playerId
  let researchStates := tickResearchStates db playerId
  let armies := tickArmies db playerId
  let allBuildings := settlements.bind (fun s => s.buildings)
  let mine := allBuildings.find? (fun b => b.type == "MINE")
  let mineIsUpgrading := match mine with
    | some m => match m.upgradeFinishAt with
      | some f => decide (now < f)
      | none => false
    | none => false
  let mineLevel := (mine.map (·.level)).getD 0
  let mineMultiplier := (MINE_LEVEL_MULTIPLIERS mineLevel).getD 1
  let cropMasteryState := researchStates.find? (fun r => r.track == "CROP_MASTERY")
  let cropMasteryLevel := (cropMasteryState.map (·.level)).getD 0
  let cropMultiplier := (CROP_MASTERY_MULTIPLIERS cropMasteryLevel).getD 1
  let sawmill := allBuildings.find? (fun b => b.type == "SAWMILL")
  let sawmillIsUpgrading := match sawmill with
    | some m => match m.upgradeFinishAt with
      | some f => decide (now < f)
      | none => false
    | none => false
  let sawmillLevel := (sawmill.map (·.level)).getD 0
  let sawmillMultiplier := (SAWMILL_LEVEL_MULTIPLIERS sawmillLevel).getD 1
  let forestryState := researchStates.find? (fun r => r.track == "FORESTRY")
  let forestryLevel := (forestryState.map (·.level)).getD 0
  let forestryMultiplier := (FORESTRY_MULTIPLIERS forestryLevel).getD 1
  let farm := allBuildings.find? (fun b => b.type == "FARM")
  let farmIsUpgrading := match farm with
    | some m => match m.upgradeFinishAt with
      | some f => decide (now < f)
      | none => false
    | none => false
  let farmLevel := (farm.map (·.level)).getD 0
  let farmMultiplier := (FARM_LEVEL_MULTIPLIERS farmLevel).getD 1
  let observatory := allBuildings.find? (fun b => b.type == "OBSERVATORY" && b.isBuilt)
  let manaDiscovered := observatory.isSome && decide (0 < resources.manaCap)
  let oreDelta :=
    if mineIsUpgrading then 0
    else BASE_ORE_PER_TICK * mineMultiplier * tickMultiplier
  let provisionsProduction :=
    if farmIsUpgrading then 0
    else BASE_PROVISIONS_PER_TICK * farmMultiplier * cropMultiplier *
      tickMultiplier
  let goldDelta := BASE_GOLD_PER_TICK * tickMultiplier
  let lumberDelta :=
    if ((sawmill.map (·.isBuilt)).getD false) && !sawmillIsUpgrading then
      SAWMILL_BASE_PER_TICK * sawmillMultiplier * forestryMultiplier *
        tickMultiplier
    else BASE_LUMBER_PER_TICK * tickMultiplier
  let manaDelta := if manaDiscovered then BASE_MANA_PER_TICK * tickMultiplier else 0
  let totalUpkeep := settlements.foldl
    (fun acc s => s.settlementUnits.foldl
      (fun acc2 u =>
        acc2 + (u.quantity : ℚ) * ((UNIT_UPKEEP_PER_TICK u.unitType).getD 0))
      acc)
    0
  let totalUpkeep := armies.foldl
    (fun acc a => a.armyUnits.foldl
      (fun acc2 u =>
        acc2 + (u.quantity : ℚ) * ((UNIT_UPKEEP_PER_TICK u.unitType).getD 0))
      acc)
    totalUpkeep
  let upkeepDrain := totalUpkeep * tickMultiplier
  let provisionsDelta := provisionsProduction - upkeepDrain
  let newOre := min (resources.ore + oreDelta) resources.oreCap
  let newProvisions :=
    max 0 (min (resources.provisions + provisionsDelta) resources.provisionsCap)
  let newGold := min (resources.gold + goldDelta) resources.goldCap
  let newLumber := min (resources.lumber + lumberDelta) resources.lumberCap
  let newMana := min (resources.mana + manaDelta) resources.manaCap
  let db5 := completeBuildings (tickCompletedBuildings now db playerId) db
  let db6 := completeResearch now playerId (tickActiveResearch db playerId)
    researchStates db5
  let db7 := completeQueues now playerId settlements db6
  let db8 := (armyArrivals now playerId armies db7 rnd).1
  updateRes db8 playerId (fun cur =>
    { cur with
        ore := newOre
        provisions := newProvisions
        gold := newGold
        lumber := newLumber
        mana := newMana
        lastTickAt := now })

/-- `processPlayerTick` from the extended tick engine: a missing
resource record returns before any write, an elapsed time under
`DEBOUNCE_MS` returns before any write, and otherwise steps 3–9 run. -/
def processPlayerTick (now : ℚ) (playerId : String) (rnd : List ℚ)
    (db : GameDB) : GameDB :=
  match findRes db playerId with
  | none => db
  | some resources =>
      let elapsedMs := now - resources.lastTickAt
      if elapsedMs < DEBOUNCE_MS then db
      else processTickBody now playerId rnd db resources

/-- Player-resources row for the C7 scenarios: last ticked at time 0,
far from every cap. -/
def tickRes0 : PlayerResources :=
  ⟨0, 0, 0, 0, 0, 10000, 10000, 10000, 10000, 10000, 0⟩

/-- Concrete one-player world for the C7 scenarios: a single resources
row and an otherwise empty database. -/
def tickDb0 : GameDB :=
  ⟨[("p1", tickRes0)], [], [], [], [], [], [], [], 1⟩

/-! # Theorems -/

/-! ### Generic bridge lemmas -/

theorem foldl_add_map_sum {α : Type} (f : α → ℚ) (l : List α) (init : ℚ) :
    l.foldl (fun s u => s + f u) init = init + (l.map f).sum := by
  induction l generalizing init with
  | nil => simp
  | cons a l ih => simp [ih, add_assoc]

theorem rawAttackSum_eq (l : List UnitTracker) :
    rawAttackSum l = totalRemainingPower l := by
  simpa [rawAttackSum, totalRemainingPower] using
    foldl_add_map_sum (fun t => statAttack t.unitType * (t.quantity : ℚ)) l 0

theorem anyAlive_eq_false_iff (l : List UnitTracker) :
    anyAlive l = false ↔ allWiped l := by
  simp [anyAlive, allWiped, List.any_eq_true, Nat.pos_iff_ne_zero]

theorem anyAlive_eq_true_iff (l : List UnitTracker) :
    anyAlive l = true ↔ ∃ t ∈ l, 0 < t.quantity := by
  simp [anyAlive, List.any_eq_true]

/-- The winner flag of `resolveCombat` is `decideWinner` on the loop's
final trackers. -/
theorem attackerWins_eq (a d : ArmyForCombat) :
    (resolveCombat a d).attackerWins =
      decideWinner (finalState a d).atkUnits (finalState a d).defUnits := rfl

theorem decideWinner_characterization (atkU defU : List UnitTracker) :
    decideWinner atkU defU = true ↔
      allWiped defU ∨
        ((∃ t ∈ atkU, 0 < t.quantity) ∧
          totalRemainingPower defU < totalRemainingPower atkU) := by
  unfold decideWinner
  by_cases hdef : anyAlive defU
  · by_cases hatk : anyAlive atkU
    · have hdef' : ¬ allWiped defU := by
        rw [← anyAlive_eq_false_iff]; simp [hdef]
      have hex := (anyAlive_eq_true_iff atkU).mp hatk
      simp [hdef, hatk, hdef', remainingPower, rawAttackSum_eq, hex]
    · have hatk' : ¬ ∃ t ∈ atkU, 0 < t.quantity := by
        rw [← anyAlive_eq_true_iff]; simp [Bool.eq_false_iff.mpr hatk]
      have hdef' : ¬ allWiped defU := by
        rw [← anyAlive_eq_false_iff]; simp [hdef]
      simp [hdef, Bool.eq_false_iff.mpr hatk, hatk', hdef']
  · have hdef' : allWiped defU := by
      rw [← anyAlive_eq_false_iff]; simp [Bool.eq_false_iff.mpr hdef]
    simp [Bool.eq_false_iff.mpr hdef, hdef']

/-- **C1** — Winner determination of the round-based `resolveCombat`:
`attackerWins` is `true` exactly when the defender has zero surviving
units, or both sides have survivors and the attacker's total remaining
raw attack power (Σ attack × quantity over surviving units, ranged and
melee alike) is strictly greater than the defender's.  In particular a
defender with survivors against a wiped attacker loses nothing, and an
exact power tie yields `attackerWins = false`. -/
theorem combat_winner_determination (a d : ArmyForCombat) :
    (resolveCombat a d).attackerWins = true ↔
      allWiped (finalState a d).defUnits ∨
        ((∃ t ∈ (finalState a d).atkUnits, 0 < t.quantity) ∧
          totalRemainingPower (finalState a d).defUnits <
            totalRemainingPower (finalState a d).atkUnits) := by
  rw [attackerWins_eq, decideWinner_characterization]

/-- **C10** — If the round loop exits with zero survivors on both sides
(a mutual wipe), the attacker is declared the winner, because the
defender-wiped check is evaluated first. -/
theorem mutual_wipe_attacker_wins (a d : ArmyForCombat)
    (hatk : allWiped (finalState a d).atkUnits)
    (hdef : allWiped (finalState a d).defUnits) :
    (resolveCombat a d).attackerWins = true := by
  rw [attackerWins_eq, decideWinner_characterization]
  exact Or.inl hdef

/-- Witness for **C10**: one infantry against one infantry kill each other
in the first melee exchange; the attacker is declared winner. -/
theorem mutual_wipe_attacker_wins_witness :
    allWiped (finalState duelAtk duelDef).atkUnits ∧
      allWiped (finalState duelAtk duelDef).defUnits ∧
      (resolveCombat duelAtk duelDef).attackerWins = true :=
  ⟨of_decide_eq_true (by with_unfolding_all rfl),
    of_decide_eq_true (by with_unfolding_all rfl),
    mutual_wipe_attacker_wins duelAtk duelDef
      (of_decide_eq_true (by with_unfolding_all rfl))
      (of_decide_eq_true (by with_unfolding_all rfl))⟩

/-! ### C3 — termination and early exit of the round loop -/

theorem combatLoop_snd_le (cfg : CombatConfig) :
    ∀ fuel round st, (combatLoop cfg fuel round st).2 ≤ fuel := by
  intro fuel
  induction fuel with
  | zero => intro round st; simp [combatLoop]
  | succ n ih =>
      intro round st
      simp only [combatLoop]
      split
      · split
        · simp
        · simpa using Nat.succ_le_succ (ih (round + 1) _)
      · simp

theorem combatLoop_dead_exit (cfg : CombatConfig) (fuel round : ℕ)
    (st : BattleState)
    (h : anyAlive st.atkUnits = false ∨ anyAlive st.defUnits = false) :
    combatLoop cfg fuel round st = (st, 0) := by
  rcases h with h | h <;> cases fuel <;> simp [combatLoop, h]

theorem combatLoop_break_exit (cfg : CombatConfig) (fuel round : ℕ)
    (st : BattleState) (hatk : anyAlive st.atkUnits = true)
    (hdef : anyAlive st.defUnits = true)
    (hflag : (runRound cfg round st).2 = true) :
    combatLoop cfg (fuel + 1) round st = ((runRound cfg round st).1, 1) := by
  simp [combatLoop, hatk, hdef, hflag]

theorem runRound_flag_iff (cfg : CombatConfig) (round : ℕ) (st : BattleState) :
    (runRound cfg round st).2 = true ↔
      (anyAlive (rangedPhase cfg st).atkUnits = false ∨
        anyAlive (rangedPhase cfg st).defUnits = false) ∨
      sumLost (runRound cfg round st).1.atkUnits +
          sumLost (runRound cfg round st).1.defUnits =
        sumLost st.atkUnits + sumLost st.defUnits := by
  unfold runRound
  by_cases ha : anyAlive (rangedPhase cfg st).atkUnits
  · by_cases hd : anyAlive (rangedPhase cfg st).defUnits
    · simp [ha, hd]
    · simp [ha, Bool.eq_false_iff.mpr hd]
  · simp [Bool.eq_false_iff.mpr ha]

/-- **C3** — The round loop of `resolveCombat` terminates: it executes at
most `MAX_ROUNDS = 50` iterations; it exits at once (running zero further
rounds) when either side has no survivors; it exits right after any round
whose break flag is set; and the break flag is set exactly when the
ranged volley left a side with no survivors or the completed round
produced zero new casualties across both sides combined. -/
theorem combat_loop_termination :
    (∀ attacker defender : ArmyForCombat,
        combatRounds attacker defender ≤ MAX_ROUNDS) ∧
    (∀ (cfg : CombatConfig) (fuel round : ℕ) (st : BattleState),
        anyAlive st.atkUnits = false ∨ anyAlive st.defUnits = false →
        combatLoop cfg fuel round st = (st, 0)) ∧
    (∀ (cfg : CombatConfig) (fuel round : ℕ) (st : BattleState),
        anyAlive st.atkUnits = true → anyAlive st.defUnits = true →
        (runRound cfg round st).2 = true →
        combatLoop cfg (fuel + 1) round st = ((runRound cfg round st).1, 1)) ∧
    (∀ (cfg : CombatConfig) (round : ℕ) (st : BattleState),
        (runRound cfg round st).2 = true ↔
          (anyAlive (rangedPhase cfg st).atkUnits = false ∨
            anyAlive (rangedPhase cfg st).defUnits = false) ∨
          sumLost (runRound cfg round st).1.atkUnits +
              sumLost (runRound cfg round st).1.defUnits =
            sumLost st.atkUnits + sumLost st.defUnits) :=
  ⟨fun a d => combatLoop_snd_le (configOf d) MAX_ROUNDS 0 (initialState a d),
   fun cfg fuel round st h => combatLoop_dead_exit cfg fuel round st h,
   fun cfg fuel round st h1 h2 h3 => combatLoop_break_exit cfg fuel round st h1 h2 h3,
   fun cfg round st => runRound_flag_iff cfg round st⟩

/-- Witness for **C3** at concrete inputs: an empty attacker makes the
loop exit immediately; a warden-against-warden stalemate round produces
zero casualties and the loop breaks after exactly one round. -/
theorem combat_loop_termination_witness :
    combatRounds duelAtk duelDef ≤ MAX_ROUNDS ∧
      combatLoop (configOf duelDef) 7 3 (initialState emptyArmy duelDef) =
        (initialState emptyArmy duelDef, 0) ∧
      combatLoop (configOf stallDef) MAX_ROUNDS 0 (initialState stallAtk stallDef) =
        ((runRound (configOf stallDef) 0 (initialState stallAtk stallDef)).1, 1) := by
  refine ⟨combat_loop_termination.1 duelAtk duelDef, ?_, ?_⟩
  · exact combat_loop_termination.2.1 (configOf duelDef) 7 3
      (initialState emptyArmy duelDef) (Or.inl (by with_unfolding_all rfl))
  · exact combat_loop_termination.2.2.1 (configOf stallDef) 49 0
      (initialState stallAtk stallDef) (by with_unfolding_all rfl)
      (by with_unfolding_all rfl) (by with_unfolding_all rfl)

/-! ### C9 — NPC defender generation -/

theorem jsRound_nonneg (q : ℚ) (h : 0 ≤ q) : 0 ≤ jsRound q := by
  unfold jsRound
  exact Int.le_floor.mpr (by push_cast; linarith)

/-- **C9** — `generateNPCDefenders` is deterministic in its inputs (it is
a pure function of them) and returns: unit counts equal to
`round(strength × per-type ratio × (1.5 if isHideout else 1.0))`; a
HEAVY_INFANTRY contingent exactly when `strength ≥ 5`; a WALLS structure
at level `min(strength, 3)` exactly when `isHideout`; and declared
provisions `strength × 200 × hideoutMultiplier`. -/
theorem npc_defender_generation (f : NPCFaction) (hideout : Bool) :
    (∀ g ∈ (generateNPCDefenders f hideout).units,
        (g.quantity : ℤ) =
          jsRound (f.strength * specNpcRatio g.unitType * hideoutMult hideout)) ∧
    ((∃ q, (⟨"HEAVY_INFANTRY", q⟩ : UnitGroup) ∈
        (generateNPCDefenders f hideout).units) ↔ 5 ≤ f.strength) ∧
    ((generateNPCDefenders f hideout).defenseStructures =
      if hideout then some [⟨"WALLS", min f.strength 3⟩] else none) ∧
    (generateNPCDefenders f hideout).provisions =
      f.strength * 200 * hideoutMult hideout := by
  refine ⟨?_, ?_, ?_, ?_⟩
  · intro g hg
    have key : ∀ q : ℚ, 0 ≤ q → ((jsRound q).toNat : ℤ) = jsRound q :=
      fun q hq => Int.toNat_of_nonneg (jsRound_nonneg q hq)
    cases hideout <;>
      by_cases h5 : 5 ≤ f.strength <;>
        simp only [generateNPCDefenders, h5, if_true, if_false,
          Bool.false_eq_true, List.mem_append, List.mem_cons,
          List.mem_singleton, List.not_mem_nil, or_false, or_assoc] at hg
    all_goals
      first
        | (rcases hg with hg | hg | hg)
        | (rcases hg with hg | hg)
    all_goals try subst hg
    all_goals exact key _ (by positivity)
  · by_cases h5 : 5 ≤ f.strength <;>
      cases hideout <;> simp [generateNPCDefenders, h5]
  · cases hideout <;> simp [generateNPCDefenders]
  · cases hideout <;> simp [generateNPCDefenders, hideoutMult]

/-- Witness for **C9** at strength 6, hideout: counts 45/18/9, walls at
level 3, provisions 1800. -/
theorem npc_defender_generation_witness :
    ((⟨"INFANTRY", 45⟩ : UnitGroup) ∈
        (generateNPCDefenders npcWitnessFaction true).units ∧
      ((45 : ℕ) : ℤ) =
        jsRound (npcWitnessFaction.strength * specNpcRatio "INFANTRY" *
          hideoutMult true)) ∧
      (∃ q, (⟨"HEAVY_INFANTRY", q⟩ : UnitGroup) ∈
        (generateNPCDefenders npcWitnessFaction true).units) ∧
      (generateNPCDefenders npcWitnessFaction true).defenseStructures =
        some [⟨"WALLS", 3⟩] ∧
      (generateNPCDefenders npcWitnessFaction true).provisions = 1800 := by
  have hmem : (⟨"INFANTRY", 45⟩ : UnitGroup) ∈
      (generateNPCDefenders npcWitnessFaction true).units :=
    of_decide_eq_true (by with_unfolding_all rfl)
  refine ⟨⟨hmem, ?_⟩, ?_, ?_, ?_⟩
  · exact (npc_defender_generation npcWitnessFaction true).1 _ hmem
  · exact (npc_defender_generation npcWitnessFaction true).2.1.mpr
      (by norm_num [npcWitnessFaction])
  · have h := (npc_defender_generation npcWitnessFaction true).2.2.1
    simpa [npcWitnessFaction] using h
  · have h := (npc_defender_generation npcWitnessFaction true).2.2.2
    norm_num [npcWitnessFaction, hideoutMult] at h
    exact h

/-! ### Nonnegativity facts about the stat tables -/

theorem stats_nonneg (u : String) (s : UnitStats) (h : UNIT_STATS u = some s) :
    0 ≤ s.attack ∧ 0 < s.defense ∧ 0 ≤ s.speed ∧ 0 ≤ s.carryCapacity := by
  unfold UNIT_STATS at h
  split at h <;> simp_all <;> subst h <;> norm_num

theorem statAttack_nonneg (u : String) : 0 ≤ statAttack u := by
  unfold statAttack
  rcases h : UNIT_STATS u with _ | s
  · simp
  · simpa using (stats_nonneg u s h).1

theorem foldl_le_of_step {α : Type} (f : ℚ → α → ℚ)
    (h : ∀ acc u, acc ≤ f acc u) :
    ∀ (l : List α) (init : ℚ), init ≤ l.foldl f init := by
  intro l
  induction l with
  | nil => simp
  | cons a l ih => intro init; exact le_trans (h init a) (ih _)

theorem atkMeleeRaw_nonneg (round : ℕ) (l : List UnitTracker) :
    0 ≤ atkMeleeRaw round l := by
  unfold atkMeleeRaw
  refine foldl_le_of_step _ ?_ l 0
  intro acc u
  have h1 := statAttack_nonneg u.unitType
  have h2 : (0:ℚ) ≤ (u.quantity : ℚ) := Nat.cast_nonneg _
  have h3 : (0:ℚ) ≤ CAVALRY_CHARGE_MULTIPLIER := by
    norm_num [CAVALRY_CHARGE_MULTIPLIER]
  dsimp only
  have h4 := mul_nonneg (mul_nonneg h1 h2) h3
  have h5 := mul_nonneg h1 h2
  split <;> linarith

theorem rawAttackSum_nonneg (l : List UnitTracker) : 0 ≤ rawAttackSum l := by
  unfold rawAttackSum
  refine foldl_le_of_step _ ?_ l 0
  intro acc u
  have h1 := statAttack_nonneg u.unitType
  have h2 : (0:ℚ) ≤ (u.quantity : ℚ) := Nat.cast_nonneg _
  nlinarith

theorem getCarryCapacity_nonneg (units : List UnitGroup) :
    0 ≤ getCarryCapacity units := by
  unfold getCarryCapacity
  refine foldl_le_of_step _ ?_ units 0
  intro acc u
  rcases h : UNIT_STATS u.unitType with _ | s
  · simp
  · simp only [h]
    split
    · have h2 : (0:ℚ) ≤ (u.quantity : ℚ) := Nat.cast_nonneg _
      nlinarith [(stats_nonneg u.unitType s h).2.2.2]
    · exact le_refl acc

/-! ### C5 — loot rules -/

/-- The loot field of the result is `lootOf` at the computed winner
flag. -/
theorem loot_eq (a d : ArmyForCombat) :
    (resolveCombat a d).loot = lootOf (resolveCombat a d).attackerWins a d := rfl

/-- **C5** — Loot: all-zero whenever the attacker loses or fields no
caravan; otherwise exactly the 40/40/20 floored split of
`min(0.2 × defender provisions, carry capacity)`; the looted total never
exceeds that minimum (for a nonnegative declared provisions value); and
the concrete Scenario D instance (1 caravan of capacity 200 against 2000
provisions) yields ore 80, provisions 80, gold 40. -/
theorem loot_rules (a d : ArmyForCombat) :
    ((resolveCombat a d).attackerWins = false ∨ hasCaravans a.units = false →
        (resolveCombat a d).loot = ⟨0, 0, 0⟩) ∧
    ((resolveCombat a d).attackerWins = true → hasCaravans a.units = true →
        (resolveCombat a d).loot = specLoot a d) ∧
    (0 ≤ d.provisions →
        (((resolveCombat a d).loot.ore + (resolveCombat a d).loot.provisions +
            (resolveCombat a d).loot.gold : ℤ) : ℚ) ≤
          min (d.provisions * (1/5)) (getCarryCapacity a.units)) ∧
    (resolveCombat lootAtk lootDef).loot = ⟨80, 80, 40⟩ := by
  refine ⟨?_, ?_, ?_, by with_unfolding_all rfl⟩
  · intro h
    rw [loot_eq]
    unfold lootOf
    rcases h with h | h <;> simp [h]
  · intro hw hc
    rw [loot_eq]
    simp [lootOf, hw, hc, specLoot]
  · intro hprov
    rw [loot_eq]
    unfold lootOf
    split
    · set actual := min (d.provisions * (1/5)) (getCarryCapacity a.units) with hact
      have h1 : ((⌊actual * (2/5)⌋ : ℤ) : ℚ) ≤ actual * (2/5) := Int.floor_le _
      have h2 : ((⌊actual * (1/5)⌋ : ℤ) : ℚ) ≤ actual * (1/5) := Int.floor_le _
      push_cast
      linarith
    · have h1 : 0 ≤ d.provisions * (1/5) := by positivity
      have h2 := getCarryCapacity_nonneg a.units
      have h3 : (0:ℚ) ≤ min (d.provisions * (1/5)) (getCarryCapacity a.units) :=
        le_min h1 h2
      simpa using h3

/-- Witness for **C5**: the winning Scenario D battle takes the exact
split, the bound holds there, and a losing battle takes zero loot. -/
theorem loot_rules_witness :
    (resolveCombat lootAtk lootDef).loot = specLoot lootAtk lootDef ∧
      (((resolveCombat lootAtk lootDef).loot.ore +
          (resolveCombat lootAtk lootDef).loot.provisions +
          (resolveCombat lootAtk lootDef).loot.gold : ℤ) : ℚ) ≤
        min (lootDef.provisions * (1/5)) (getCarryCapacity lootAtk.units) ∧
      (resolveCombat wallAtk wallDef).loot = ⟨0, 0, 0⟩ := by
  refine ⟨?_, ?_, ?_⟩
  · exact (loot_rules lootAtk lootDef).2.1 (by with_unfolding_all rfl)
      (by with_unfolding_all rfl)
  · exact (loot_rules lootAtk lootDef).2.2.1 (by norm_num [lootDef])
  · exact (loot_rules wallAtk wallDef).1 (Or.inl (by with_unfolding_all rfl))

/-! ### C6 — the wall HP pool -/

/-- The melee raw damage drained from the wall in one melee sub-phase. -/
theorem meleePhase_wall_eq (cfg : CombatConfig) (round : ℕ) (st : BattleState) :
    (meleePhase cfg round st).wallHpRemaining =
      st.wallHpRemaining -
        min (atkMeleeRaw round
            (st.atkUnits.filter (fun u => isMeleeType u.unitType && 0 < u.quantity)))
          st.wallHpRemaining ∧
    (meleePhase cfg round st).totalWallDamageAbsorbed =
      st.totalWallDamageAbsorbed +
        min (atkMeleeRaw round
            (st.atkUnits.filter (fun u => isMeleeType u.unitType && 0 < u.quantity)))
          st.wallHpRemaining := ⟨rfl, rfl⟩

theorem meleePhase_wall_mono (cfg : CombatConfig) (round : ℕ) (st : BattleState)
    (h : 0 ≤ st.wallHpRemaining) :
    (meleePhase cfg round st).wallHpRemaining ≤ st.wallHpRemaining ∧
      0 ≤ (meleePhase cfg round st).wallHpRemaining := by
  rw [(meleePhase_wall_eq cfg round st).1]
  constructor
  · have hnn : 0 ≤ min (atkMeleeRaw round
        (st.atkUnits.filter (fun u => isMeleeType u.unitType && 0 < u.quantity)))
        st.wallHpRemaining :=
      le_min (atkMeleeRaw_nonneg _ _) h
    linarith
  · have hle : min (atkMeleeRaw round
        (st.atkUnits.filter (fun u => isMeleeType u.unitType && 0 < u.quantity)))
        st.wallHpRemaining ≤ st.wallHpRemaining := min_le_right _ _
    linarith

theorem runRound_wall_mono (cfg : CombatConfig) (round : ℕ) (st : BattleState)
    (h : 0 ≤ st.wallHpRemaining) :
    (runRound cfg round st).1.wallHpRemaining ≤ st.wallHpRemaining ∧
      0 ≤ (runRound cfg round st).1.wallHpRemaining := by
  have hr : (rangedPhase cfg st).wallHpRemaining = st.wallHpRemaining := rfl
  simp only [runRound]
  split
  · exact ⟨le_of_eq hr, hr ▸ h⟩
  · have hm := meleePhase_wall_mono cfg round (rangedPhase cfg st) (hr ▸ h)
    exact ⟨le_trans hm.1 (le_of_eq hr), hm.2⟩

theorem combatLoop_wall_mono (cfg : CombatConfig) :
    ∀ (fuel round : ℕ) (st : BattleState), 0 ≤ st.wallHpRemaining →
      (combatLoop cfg fuel round st).1.wallHpRemaining ≤ st.wallHpRemaining ∧
        0 ≤ (combatLoop cfg fuel round st).1.wallHpRemaining := by
  intro fuel
  induction fuel with
  | zero => intro round st h; exact ⟨le_of_eq rfl, h⟩
  | succ n ih =>
      intro round st h
      simp only [combatLoop]
      split
      · split
        · exact runRound_wall_mono cfg round st h
        · have h1 := runRound_wall_mono cfg round st h
          have h2 := ih (round + 1) (runRound cfg round st).1 h1.2
          exact ⟨le_trans h2.1 h1.1, h2.2⟩
      · exact ⟨le_refl _, h⟩

/-- **C6** — Wall HP pool invariant: within one `resolveCombat` call the
wall pool starts at `WALL_HP_PER_LEVEL × wallLevel`; the ranged sub-phase
leaves it unchanged; each melee sub-phase drains exactly
`min(attacker melee raw, remaining wall HP)` (also accumulated into the
reported `wallDamageAbsorbed`); starting from a nonnegative pool it never
increases and never drops below 0, through single steps and through the
whole loop; and in the Scenario B battle (wall level 2, attacker melee
raw 150) the report shows 150 absorbed and zero defender losses. -/
theorem wall_pool_invariant :
    (∀ a d : ArmyForCombat,
        (initialState a d).wallHpRemaining =
          WALL_HP_PER_LEVEL * ((extractLevels d).1 : ℚ)) ∧
    (∀ (cfg : CombatConfig) (st : BattleState),
        (rangedPhase cfg st).wallHpRemaining = st.wallHpRemaining) ∧
    (∀ (cfg : CombatConfig) (round : ℕ) (st : BattleState),
        (meleePhase cfg round st).wallHpRemaining =
          st.wallHpRemaining -
            min (atkMeleeRaw round
                (st.atkUnits.filter (fun u => isMeleeType u.unitType && 0 < u.quantity)))
              st.wallHpRemaining ∧
        (meleePhase cfg round st).totalWallDamageAbsorbed =
          st.totalWallDamageAbsorbed +
            min (atkMeleeRaw round
                (st.atkUnits.filter (fun u => isMeleeType u.unitType && 0 < u.quantity)))
              st.wallHpRemaining) ∧
    (∀ (cfg : CombatConfig) (round : ℕ) (st : BattleState),
        0 ≤ st.wallHpRemaining →
        (runRound cfg round st).1.wallHpRemaining ≤ st.wallHpRemaining ∧
          0 ≤ (runRound cfg round st).1.wallHpRemaining) ∧
    (∀ a d : ArmyForCombat,
        0 ≤ (finalState a d).wallHpRemaining ∧
          (finalState a d).wallHpRemaining ≤
            WALL_HP_PER_LEVEL * ((extractLevels d).1 : ℚ)) ∧
    ((resolveCombat wallAtk wallDef).melee.wallDamageAbsorbed = 150 ∧
      (resolveCombat wallAtk wallDef).defenderLosses = []) := by
  refine ⟨fun a d => rfl, fun cfg st => rfl,
    fun cfg round st => meleePhase_wall_eq cfg round st,
    fun cfg round st h => runRound_wall_mono cfg round st h,
    fun a d => ?_, by with_unfolding_all rfl, by with_unfolding_all rfl⟩
  have h0 : 0 ≤ (initialState a d).wallHpRemaining := by
    have : (initialState a d).wallHpRemaining =
        WALL_HP_PER_LEVEL * ((extractLevels d).1 : ℚ) := rfl
    rw [this]
    have : (0:ℚ) ≤ WALL_HP_PER_LEVEL := by norm_num [WALL_HP_PER_LEVEL]
    positivity
  have h := combatLoop_wall_mono (configOf d) MAX_ROUNDS 0 (initialState a d) h0
  exact ⟨h.2, h.1⟩

/-- Witness for **C6**: the step and loop monotonicity facts discharged at
the concrete Scenario B battle state. -/
theorem wall_pool_invariant_witness :
    (runRound (configOf wallDef) 0 (initialState wallAtk wallDef)).1.wallHpRemaining ≤
        (initialState wallAtk wallDef).wallHpRemaining ∧
      0 ≤ (runRound (configOf wallDef) 0 (initialState wallAtk wallDef)).1.wallHpRemaining ∧
      0 ≤ (finalState wallAtk wallDef).wallHpRemaining := by
  have h1 := wall_pool_invariant.2.2.2.1 (configOf wallDef) 0
    (initialState wallAtk wallDef) (of_decide_eq_true (by with_unfolding_all rfl))
  have h2 := (wall_pool_invariant.2.2.2.2.1 wallAtk wallDef).1
  exact ⟨h1.1, h1.2, h2⟩

/-! ### C8 — unknown unit types -/

theorem targetTotalHp_eq (l : List UnitTracker) :
    targetTotalHp l =
      (l.map (fun t => statDefenseOr1 t.unitType * (t.quantity : ℚ))).sum := by
  simpa [targetTotalHp] using
    foldl_add_map_sum (fun t => statDefenseOr1 t.unitType * (t.quantity : ℚ)) l 0

theorem statAttack_of_unknown (u : String) (h : UNIT_STATS u = none) :
    statAttack u = 0 := by
  simp [statAttack, h]

theorem statDefenseOr1_of_unknown (u : String) (h : UNIT_STATS u = none) :
    statDefenseOr1 u = 1 := by
  simp [statDefenseOr1, h]

/-- Raw-damage sums ignore unknown unit types (their attack defaults to
0). -/
theorem rawAttackSum_filter_known (ts : List UnitTracker) :
    rawAttackSum ts =
      rawAttackSum (ts.filter (fun t => (UNIT_STATS t.unitType).isSome)) := by
  rw [rawAttackSum_eq, rawAttackSum_eq]
  unfold totalRemainingPower
  induction ts with
  | nil => simp
  | cons t ts ih =>
      by_cases h : (UNIT_STATS t.unitType).isSome
      · simp [List.filter_cons, h, ih]
      · have hz : statAttack t.unitType = 0 :=
          statAttack_of_unknown _ (Option.not_isSome_iff_eq_none.mp h)

        simp [List.filter_cons, h, hz, ih]

/-- The HP-pool sums do NOT exclude unknown unit types: each contributes
`quantity × 1` through the `defense ?? 1` default. -/
theorem targetTotalHp_split (ts : List UnitTracker) :
    targetTotalHp ts =
      targetTotalHp (ts.filter (fun t => (UNIT_STATS t.unitType).isSome)) +
        ((ts.filter (fun t => (UNIT_STATS t.unitType).isNone)).map
          (fun t => (t.quantity : ℚ))).sum := by
  rw [targetTotalHp_eq, targetTotalHp_eq]
  induction ts with
  | nil => simp
  | cons t ts ih =>
      by_cases h : (UNIT_STATS t.unitType).isSome
      · have hne : UNIT_STATS t.unitType ≠ none := Option.isSome_iff_ne_none.mp h
        have h' : ¬ (UNIT_STATS t.unitType).isNone := by
          simp [Option.isNone_iff_eq_none, hne]
        simp [List.filter_cons, h, h', hne, ih]
        ring
      · have heq : UNIT_STATS t.unitType = none :=
          Option.not_isSome_iff_eq_none.mp h
        have h' : (UNIT_STATS t.unitType).isNone := by
          simp [Option.isNone_iff_eq_none, heq]
        have hz : statDefenseOr1 t.unitType = 1 :=
          statDefenseOr1_of_unknown _ heq
        simp [List.filter_cons, h, h', hz, ih]
        ring

/-- `applyRangedProportional` never applies kills to an unknown type. -/
theorem applyRangedProportional_unknown (dmg : ℚ) (ts : List UnitTracker)
    (i : ℕ) (h : UNIT_STATS ((ts.getD i default).unitType) = none) :
    (applyRangedProportional dmg ts).getD i default = ts.getD i default := by
  simp only [applyRangedProportional]
  split
  · rfl
  · rw [List.getD_eq_getElem?_getD, List.getElem?_map,
      List.getD_eq_getElem?_getD]
    cases hi : ts[i]? with
    | none => rfl
    | some t =>
        have ht : ts.getD i default = t := by
          rw [List.getD_eq_getElem?_getD, hi]; rfl
        rw [ht] at h
        simp only [Option.map_some, Option.getD_some]
        by_cases hq : t.quantity = 0
        · simp [hq]
        · simp [hq, h]

/-- `applyMeleeProportional` never applies kills to an unknown type. -/
theorem applyMeleeProportional_unknown (dmg : ℚ)
    (attackers ts : List UnitTracker) (i : ℕ)
    (h : UNIT_STATS ((ts.getD i default).unitType) = none) :
    (applyMeleeProportional dmg attackers ts).getD i default =
      ts.getD i default := by
  simp only [applyMeleeProportional]
  split
  · rfl
  · rw [List.getD_eq_getElem?_getD, List.getElem?_map,
      List.getD_eq_getElem?_getD]
    cases hi : ts[i]? with
    | none => rfl
    | some t =>
        have ht : ts.getD i default = t := by
          rw [List.getD_eq_getElem?_getD, hi]; rfl
        rw [ht] at h
        simp only [Option.map_some, Option.getD_some]
        by_cases hq : t.quantity = 0
        · simp [hq]
        · simp [hq, h]

/-- One step of the speed-order pool consumption touches only positions
holding a known unit type. -/
theorem speedOrderStep_unknown (st : List UnitTracker × ℚ) (j i : ℕ)
    (h : UNIT_STATS ((st.1.getD i default).unitType) = none) :
    (speedOrderStep st j).1.getD i default = st.1.getD i default := by
  simp only [speedOrderStep]
  split
  · rfl
  · cases hj : UNIT_STATS ((st.1.getD j default).unitType) with
    | none => simp [hj]
    | some s =>
        simp only [hj]
        have hne : j ≠ i := by
          intro hji
          rw [hji, h] at hj
          exact Option.noConfusion hj
        by_cases hq : (st.1.getD j default).quantity = 0
        · rw [if_pos hq]
        · rw [if_neg hq]
          split <;>
            rw [List.getD_eq_getElem?_getD, List.getElem?_set_ne hne,
              ← List.getD_eq_getElem?_getD]

/-- `applyRangedSpeedOrder` never applies kills to an unknown type. -/
theorem applyRangedSpeedOrder_unknown (dmg : ℚ) (ts : List UnitTracker)
    (i : ℕ) (h : UNIT_STATS ((ts.getD i default).unitType) = none) :
    (applyRangedSpeedOrder dmg ts).getD i default = ts.getD i default := by
  unfold applyRangedSpeedOrder
  generalize speedSortedIdx ts = idxs
  suffices key : ∀ (idxs : List ℕ) (st : List UnitTracker × ℚ),
      UNIT_STATS ((st.1.getD i default).unitType) = none →
      (idxs.foldl speedOrderStep st).1.getD i default = st.1.getD i default by
    exact key idxs (ts, dmg) h
  intro idxs
  induction idxs with
  | nil => intro st h'; rfl
  | cons j rest ih =>
      intro st h'
      have hstep := speedOrderStep_unknown st j i h'
      have h'' : UNIT_STATS (((speedOrderStep st j).1.getD i default).unitType) = none := by
        rw [hstep]; exact h'
      calc ((j :: rest).foldl speedOrderStep st).1.getD i default
          = (rest.foldl speedOrderStep (speedOrderStep st j)).1.getD i default := rfl
        _ = (speedOrderStep st j).1.getD i default := ih _ h''
        _ = st.1.getD i default := hstep

/-- Unknown-type groups with positive quantity are still tracked. -/
theorem mkTrackers_mem (units : List UnitGroup) (g : UnitGroup)
    (hmem : g ∈ units) (hq : 0 < g.quantity) :
    (⟨g.unitType, g.quantity, 0⟩ : UnitTracker) ∈ mkTrackers units := by
  unfold mkTrackers
  exact List.mem_map_of_mem _ (List.mem_filter.mpr ⟨hmem, by simpa using hq⟩)

/-- Counterexample for **C8**: the claim says an unknown unit type "is
excluded from every HP-pool sum used for proportional damage shares", but
the source computes the pool with `(stats?.defense ?? 1) × quantity`, so
an unknown type contributes its quantity.  Concretely, 80 unknown
"DRAKE"s dilute the damage share of 10 INFANTRY from 6 kills down to 3,
while an exclusion would leave the kills unchanged. -/
theorem unknown_unit_hp_pool_counterexample :
    UNIT_STATS "DRAKE" = none ∧
    targetTotalHp [⟨"DRAKE", 8, 0⟩] = 8 ∧
    targetTotalHp (([⟨"DRAKE", 8, 0⟩] : List UnitTracker).filter
      (fun t => (UNIT_STATS t.unitType).isSome)) = 0 ∧
    applyRangedProportional 40 [⟨"INFANTRY", 10, 0⟩] =
      [⟨"INFANTRY", 4, 6⟩] ∧
    applyRangedProportional 40 [⟨"INFANTRY", 10, 0⟩, ⟨"DRAKE", 80, 0⟩] =
      [⟨"INFANTRY", 7, 3⟩, ⟨"DRAKE", 80, 0⟩] :=
  ⟨by with_unfolding_all rfl, by with_unfolding_all rfl,
   by with_unfolding_all rfl, by with_unfolding_all rfl,
   by with_unfolding_all rfl⟩

/-- **C8 (amended)** — A unit type not present in `UNIT_STATS` contributes
zero attack to every raw-damage sum; it is INCLUDED in the HP-pool sums
used for proportional damage shares, with its defense defaulted to 1
(contributing its quantity); it never has kills applied to it by any of
the three damage appliers; and it is still tracked for quantity
accounting. -/
theorem unknown_unit_amended (u : String) (hu : UNIT_STATS u = none) :
    statAttack u = 0 ∧
    (∀ ts : List UnitTracker, rawAttackSum ts =
        rawAttackSum (ts.filter (fun t => (UNIT_STATS t.unitType).isSome))) ∧
    (∀ ts : List UnitTracker, targetTotalHp ts =
        targetTotalHp (ts.filter (fun t => (UNIT_STATS t.unitType).isSome)) +
          ((ts.filter (fun t => (UNIT_STATS t.unitType).isNone)).map
            (fun t => (t.quantity : ℚ))).sum) ∧
    (∀ (dmg : ℚ) (ts : List UnitTracker) (i : ℕ),
        (ts.getD i default).unitType = u →
        (applyRangedProportional dmg ts).getD i default = ts.getD i default ∧
        (applyRangedSpeedOrder dmg ts).getD i default = ts.getD i default ∧
        ∀ attackers, (applyMeleeProportional dmg attackers ts).getD i default =
          ts.getD i default) ∧
    (∀ (units : List UnitGroup) (g : UnitGroup), g ∈ units → 0 < g.quantity →
        (⟨g.unitType, g.quantity, 0⟩ : UnitTracker) ∈ mkTrackers units) := by
  refine ⟨statAttack_of_unknown u hu, rawAttackSum_filter_known,
    targetTotalHp_split, ?_, mkTrackers_mem⟩
  intro dmg ts i hty
  have h : UNIT_STATS ((ts.getD i default).unitType) = none := by rw [hty]; exact hu
  exact ⟨applyRangedProportional_unknown dmg ts i h,
    applyRangedSpeedOrder_unknown dmg ts i h,
    fun attackers => applyMeleeProportional_unknown dmg attackers ts i h⟩

/-- Witness for **C8 (amended)** at the unknown type "DRAKE". -/
theorem unknown_unit_amended_witness :
    UNIT_STATS "DRAKE" = none ∧
    statAttack "DRAKE" = 0 ∧
    (applyRangedProportional 40 [⟨"INFANTRY", 10, 0⟩, ⟨"DRAKE", 80, 0⟩]).getD 1 default =
      (([⟨"INFANTRY", 10, 0⟩, ⟨"DRAKE", 80, 0⟩] : List UnitTracker).getD 1 default) := by
  have hu : UNIT_STATS "DRAKE" = none := by with_unfolding_all rfl
  refine ⟨hu, (unknown_unit_amended "DRAKE" hu).1, ?_⟩
  exact ((unknown_unit_amended "DRAKE" hu).2.2.2.1 40
    [⟨"INFANTRY", 10, 0⟩, ⟨"DRAKE", 80, 0⟩] 1 (by with_unfolding_all rfl)).1

/-! ### C2 — conservation: `quantity + lost` is invariant -/

theorem Preserves.refl (a : List UnitTracker) : Preserves a a :=
  ⟨rfl, fun _ => ⟨rfl, rfl, le_refl _⟩⟩

theorem Preserves.trans {a b c : List UnitTracker}
    (h1 : Preserves a b) (h2 : Preserves b c) : Preserves a c := by
  refine ⟨h2.1.trans h1.1, fun i => ?_⟩
  obtain ⟨t1, s1, l1⟩ := h1.2 i
  obtain ⟨t2, s2, l2⟩ := h2.2 i
  exact ⟨t2.trans t1, s2.trans s1, l1.trans l2⟩

/-- A pointwise-conserving map preserves. -/
theorem preserves_map (f : UnitTracker → UnitTracker)
    (hf : ∀ t : UnitTracker, (f t).unitType = t.unitType ∧
      (f t).quantity + (f t).lost = t.quantity + t.lost ∧ t.lost ≤ (f t).lost)
    (ts : List UnitTracker) : Preserves ts (ts.map f) := by
  refine ⟨List.length_map ts f, fun i => ?_⟩
  rw [List.getD_eq_getElem?_getD, List.getElem?_map,
    List.getD_eq_getElem?_getD]
  cases hi : ts[i]? with
  | none => exact ⟨rfl, rfl, le_refl _⟩
  | some t => exact hf t

/-- A conserving update at one position preserves. -/
theorem preserves_set (ts : List UnitTracker) (j : ℕ) (x : UnitTracker)
    (hx : x.unitType = (ts.getD j default).unitType ∧
      x.quantity + x.lost = (ts.getD j default).quantity + (ts.getD j default).lost ∧
      (ts.getD j default).lost ≤ x.lost) :
    Preserves ts (ts.set j x) := by
  refine ⟨List.length_set ts j x, fun i => ?_⟩
  by_cases hij : j = i
  · subst hij
    by_cases hj : j < ts.length
    · have : (ts.set j x).getD j default = x := by
        rw [List.getD_eq_getElem?_getD, List.getElem?_set_eq_of_lt x hj]
        rfl
      rw [this]
      exact hx
    · have hset : ts.set j x = ts := List.set_eq_of_length_le (Nat.le_of_not_lt hj)
      rw [hset]
      exact ⟨rfl, rfl, le_refl _⟩
  · have : (ts.set j x).getD i default = ts.getD i default := by
      rw [List.getD_eq_getElem?_getD, List.getElem?_set_ne hij,
        ← List.getD_eq_getElem?_getD]
    rw [this]
    exact ⟨rfl, rfl, le_refl _⟩

theorem applyRangedProportional_preserves (dmg : ℚ) (ts : List UnitTracker) :
    Preserves ts (applyRangedProportional dmg ts) := by
  simp only [applyRangedProportional]
  split
  · exact Preserves.refl ts
  · refine preserves_map _ (fun t => ?_) ts
    by_cases hq : t.quantity = 0
    · simp [hq]
    · simp only [hq, if_false]
      cases hs : UNIT_STATS t.unitType with
      | none => exact ⟨rfl, rfl, le_refl _⟩
      | some s =>
          refine ⟨rfl, ?_, Nat.le_add_right _ _⟩
          have hk : min (Int.toNat ⌊dmg * (↑t.quantity * s.defense / targetTotalHp ts) *
              triangleOr1 "ARCHER" t.unitType / s.defense⌋) t.quantity ≤ t.quantity :=
            min_le_right _ _
          dsimp only
          omega

theorem applyMeleeProportional_preserves (dmg : ℚ)
    (attackers ts : List UnitTracker) :
    Preserves ts (applyMeleeProportional dmg attackers ts) := by
  simp only [applyMeleeProportional]
  split
  · exact Preserves.refl ts
  · refine preserves_map _ (fun t => ?_) ts
    by_cases hq : t.quantity = 0
    · simp [hq]
    · simp only [hq, if_false]
      cases hs : UNIT_STATS t.unitType with
      | none => exact ⟨rfl, rfl, le_refl _⟩
      | some s =>
          refine ⟨rfl, ?_, Nat.le_add_right _ _⟩
          have hk : min (Int.toNat ⌊dmg * (↑t.quantity * s.defense / targetTotalHp ts) *
              (weightedTriangleDamage attackers t.unitType / rawAttackSum attackers) /
                s.defense⌋) t.quantity ≤ t.quantity :=
            min_le_right _ _
          dsimp only
          omega

/-- In the partial-kill branch of the speed-order applier, the floored
kill count is below the group's quantity. -/
theorem speedOrder_partial_le (rem : ℚ) (t : UnitTracker) (s : UnitStats)
    (hstats : UNIT_STATS t.unitType = some s)
    (hlt : rem * triangleOr1 "ARCHER" t.unitType < (t.quantity : ℚ) * s.defense) :
    Int.toNat ⌊rem * triangleOr1 "ARCHER" t.unitType / s.defense⌋ ≤ t.quantity := by
  have hdef : 0 < s.defense := (stats_nonneg _ s hstats).2.1
  have hdiv : rem * triangleOr1 "ARCHER" t.unitType / s.defense < (t.quantity : ℚ) :=
    (div_lt_iff hdef).mpr hlt
  have hfl : ⌊rem * triangleOr1 "ARCHER" t.unitType / s.defense⌋ < (t.quantity : ℤ) := by
    rw [Int.floor_lt]
    push_cast
    exact hdiv
  omega

theorem speedOrderStep_preserves (st : List UnitTracker × ℚ) (j : ℕ) :
    Preserves st.1 (speedOrderStep st j).1 := by
  simp only [speedOrderStep]
  split
  · exact Preserves.refl _
  · cases hj : UNIT_STATS ((st.1.getD j default).unitType) with
    | none => simp only [hj]; exact Preserves.refl _
    | some s =>
        simp only [hj]
        by_cases hq : (st.1.getD j default).quantity = 0
        · rw [if_pos hq]; exact Preserves.refl _
        · rw [if_neg hq]
          split
          · refine preserves_set _ j _ ⟨rfl, ?_, Nat.le_add_right _ _⟩
            dsimp only
            omega
          · rename_i hlt
            refine preserves_set _ j _ ⟨rfl, ?_, Nat.le_add_right _ _⟩
            have := speedOrder_partial_le st.2 (st.1.getD j default) s hj
              (by push_cast at hlt ⊢; linarith [not_le.mp hlt])
            dsimp only
            omega

theorem applyRangedSpeedOrder_preserves (dmg : ℚ) (ts : List UnitTracker) :
    Preserves ts (applyRangedSpeedOrder dmg ts) := by
  unfold applyRangedSpeedOrder
  generalize speedSortedIdx ts = idxs
  suffices key : ∀ (idxs : List ℕ) (st : List UnitTracker × ℚ),
      Preserves st.1 ((idxs.foldl speedOrderStep st).1) by
    exact key idxs (ts, dmg)
  intro idxs
  induction idxs with
  | nil => intro st; exact Preserves.refl _
  | cons j rest ih =>
      intro st
      exact (speedOrderStep_preserves st j).trans (ih (speedOrderStep st j))

theorem rangedPhase_preserves (cfg : CombatConfig) (st : BattleState) :
    Preserves st.atkUnits (rangedPhase cfg st).atkUnits ∧
      Preserves st.defUnits (rangedPhase cfg st).defUnits := by
  simp only [rangedPhase]
  constructor
  · split
    · exact applyRangedSpeedOrder_preserves _ _
    · exact Preserves.refl _
  · split
    · exact applyRangedProportional_preserves _ _
    · exact Preserves.refl _

theorem meleePhase_preserves (cfg : CombatConfig) (round : ℕ) (st : BattleState) :
    Preserves st.atkUnits (meleePhase cfg round st).atkUnits ∧
      Preserves st.defUnits (meleePhase cfg round st).defUnits := by
  simp only [meleePhase]
  constructor
  · split
    · exact applyMeleeProportional_preserves _ _ _
    · exact Preserves.refl _
  · split
    · exact applyMeleeProportional_preserves _ _ _
    · exact Preserves.refl _

theorem runRound_preserves (cfg : CombatConfig) (round : ℕ) (st : BattleState) :
    Preserves st.atkUnits (runRound cfg round st).1.atkUnits ∧
      Preserves st.defUnits (runRound cfg round st).1.defUnits := by
  simp only [runRound]
  split
  · exact rangedPhase_preserves cfg st
  · exact ⟨(rangedPhase_preserves cfg st).1.trans
      (meleePhase_preserves cfg round (rangedPhase cfg st)).1,
      (rangedPhase_preserves cfg st).2.trans
        (meleePhase_preserves cfg round (rangedPhase cfg st)).2⟩

theorem combatLoop_preserves (cfg : CombatConfig) :
    ∀ (fuel round : ℕ) (st : BattleState),
      Preserves st.atkUnits (combatLoop cfg fuel round st).1.atkUnits ∧
        Preserves st.defUnits (combatLoop cfg fuel round st).1.defUnits := by
  intro fuel
  induction fuel with
  | zero => intro round st; exact ⟨Preserves.refl _, Preserves.refl _⟩
  | succ n ih =>
      intro round st
      simp only [combatLoop]
      split
      · split
        · exact runRound_preserves cfg round st
        · have h1 := runRound_preserves cfg round st
          have h2 := ih (round + 1) (runRound cfg round st).1
          exact ⟨h1.1.trans h2.1, h1.2.trans h2.2⟩
      · exact ⟨Preserves.refl _, Preserves.refl _⟩

theorem finalState_preserves (a d : ArmyForCombat) :
    Preserves (mkTrackers a.units) (finalState a d).atkUnits ∧
      Preserves (mkTrackers d.units) (finalState a d).defUnits :=
  combatLoop_preserves (configOf d) MAX_ROUNDS 0 (initialState a d)

/-! #### Loss-map lemmas -/

theorem mapGetD_nil (k : String) : mapGetD [] k = 0 := rfl

theorem mapGetD_cons (p : String × ℕ) (m : LossMap) (k : String) :
    mapGetD (p :: m) k = if p.1 = k then p.2 else mapGetD m k := by
  unfold mapGetD
  by_cases h : p.1 = k
  · rw [List.find?_cons_of_pos _ (by simpa using h)]
    simp [h]
  · rw [List.find?_cons_of_neg _ (by simpa using h)]
    simp [h]

theorem mapGetD_eq_zero_of_not_mem (m : LossMap) (k : String)
    (h : k ∉ m.map (·.1)) : mapGetD m k = 0 := by
  induction m with
  | nil => rfl
  | cons p rest ih =>
      simp only [List.map_cons, List.mem_cons] at h
      push_neg at h
      rw [mapGetD_cons, if_neg (fun e => h.1 e.symm), ih h.2]

theorem mapSet_nil (k : String) (v : ℕ) : mapSet [] k v = [(k, v)] := rfl

theorem mapGetD_set (m : LossMap) (k : String) (v : ℕ) (k' : String) :
    mapGetD (mapSet m k v) k' = if k' = k then v else mapGetD m k' := by
  induction m with
  | nil =>
      rw [mapSet_nil, mapGetD_cons]
      by_cases h : k' = k
      · simp [h]
      · rw [if_neg (fun e => h e.symm), if_neg h, mapGetD_nil]
  | cons p rest ih =>
      unfold mapSet
      by_cases hp : p.1 = k
      · rw [if_pos (by simpa using hp), mapGetD_cons, mapGetD_cons]
        by_cases h : k' = k
        · simp [h]
        · rw [if_neg (fun e => h e.symm), if_neg h,
            if_neg (fun e => h (hp.symm.trans e).symm)]
      · rw [if_neg (by simpa using hp), mapGetD_cons, mapGetD_cons, ih]
        by_cases hpk : p.1 = k'
        · have hne : ¬ k' = k := fun e => hp (hpk.trans e)
          rw [if_pos hpk, if_neg hne, if_pos hpk]
        · rw [if_neg hpk, if_neg hpk]

theorem mapSet_keys (m : LossMap) (k : String) (v : ℕ) :
    (mapSet m k v).map (·.1) =
      if k ∈ m.map (·.1) then m.map (·.1) else m.map (·.1) ++ [k] := by
  induction m with
  | nil => simp [mapSet_nil]
  | cons p rest ih =>
      unfold mapSet
      by_cases hp : p.1 = k
      · rw [if_pos (by simpa using hp)]
        have hk : k ∈ (p :: rest).map (·.1) := by
          rw [List.map_cons]
          exact List.mem_cons.mpr (Or.inl hp.symm)
        rw [if_pos hk]
        simp [hp]
      · rw [if_neg (by simpa using hp)]
        simp only [List.map_cons, ih]
        have hne : k ≠ p.1 := fun e => hp e.symm
        by_cases h : k ∈ rest.map (·.1)
        · rw [if_pos h, if_pos (List.mem_cons.mpr (Or.inr h))]
        · rw [if_neg h, if_neg (by simp [hne, h])]
          simp

theorem mapSet_nodupKeys (m : LossMap) (k : String) (v : ℕ)
    (h : NodupKeys m) : NodupKeys (mapSet m k v) := by
  unfold NodupKeys at h ⊢
  rw [mapSet_keys]
  by_cases hk : k ∈ m.map (·.1)
  · rw [if_pos hk]; exact h
  · rw [if_neg hk]
    simp [List.nodup_append, h, hk]

theorem lossMapOf_getD (pairs : List (String × ℕ)) (k : String)
    (h : (pairs.map (·.1)).Nodup) :
    mapGetD (lossMapOf pairs) k =
      match pairs.find? (fun p => p.1 == k) with
      | some p => p.2
      | none => 0 := by
  unfold lossMapOf
  suffices key : ∀ (ps : List (String × ℕ)) (acc : LossMap),
      (ps.map (·.1)).Nodup →
      mapGetD (ps.foldl (fun m p => mapSet m p.1 p.2) acc) k =
        match ps.find? (fun p => p.1 == k) with
        | some p => p.2
        | none => mapGetD acc k by
    exact key pairs [] h
  intro ps
  induction ps with
  | nil => intro acc _; rfl
  | cons p rest ih =>
      intro acc hnd
      simp only [List.map_cons, List.nodup_cons] at hnd
      by_cases hk : p.1 = k
      · have hrest : rest.find? (fun q => q.1 == k) = none := by
          rw [List.find?_eq_none]
          intro q hq hbq
          exact hnd.1 (by
            rw [hk]
            exact List.mem_map.mpr ⟨q, hq, beq_iff_eq.mp hbq⟩)
        rw [List.foldl_cons, List.find?_cons_of_pos _ (by simpa using hk),
          ih _ hnd.2, hrest]
        simp [mapGetD_set, hk]
      · rw [List.foldl_cons, List.find?_cons_of_neg _ (by simpa using hk),
          ih _ hnd.2]
        have hacc : mapGetD (mapSet acc p.1 p.2) k = mapGetD acc k := by
          rw [mapGetD_set, if_neg (fun e => hk e.symm)]
        cases hf : rest.find? (fun q => q.1 == k) <;> simp [hf, hacc]

/-! #### From `Preserves` to parallel-list facts -/

theorem Preserves.forall2 {a b : List UnitTracker} (h : Preserves a b) :
    List.Forall₂ (fun ta tb => tb.unitType = ta.unitType ∧
      tb.quantity + tb.lost = ta.quantity + ta.lost ∧ ta.lost ≤ tb.lost) a b := by
  induction a generalizing b with
  | nil =>
      cases b with
      | nil => exact List.Forall₂.nil
      | cons tb bs => exact absurd h.1 (by simp)
  | cons ta as ih =>
      cases b with
      | nil => exact absurd h.1 (by simp)
      | cons tb bs =>
          have h0 := h.2 0
          simp only [List.getD_cons_zero] at h0
          refine List.Forall₂.cons h0 (ih ?_)
          refine ⟨by simpa using h.1, fun i => ?_⟩
          simpa [List.getD_cons_succ] using h.2 (i + 1)

theorem types_eq_of_forall2 {a b : List UnitTracker}
    (h : List.Forall₂ (fun ta tb => tb.unitType = ta.unitType ∧
      tb.quantity + tb.lost = ta.quantity + ta.lost ∧ ta.lost ≤ tb.lost) a b) :
    b.map (·.unitType) = a.map (·.unitType) := by
  induction h with
  | nil => rfl
  | cons h1 _ ih => simp [h1.1, ih]

theorem types_eq_of_preserves {a b : List UnitTracker} (h : Preserves a b) :
    b.map (·.unitType) = a.map (·.unitType) :=
  types_eq_of_forall2 h.forall2

theorem lostOfType_cons_pos (t : UnitTracker) (rest : List UnitTracker)
    (k : String) (h : t.unitType = k) :
    lostOfType (t :: rest) k = t.lost := by
  unfold lostOfType
  rw [List.find?_cons_of_pos _ (by simpa using h)]

theorem lostOfType_cons_neg (t : UnitTracker) (rest : List UnitTracker)
    (k : String) (h : ¬ t.unitType = k) :
    lostOfType (t :: rest) k = lostOfType rest k := by
  unfold lostOfType
  rw [List.find?_cons_of_neg _ (by simpa using h)]

theorem lookupLost_cons_pos (e : LossEntry) (rest : List LossEntry)
    (k : String) (h : e.unitType = k) :
    lookupLost (e :: rest) k = e.lost := by
  unfold lookupLost
  rw [List.find?_cons_of_pos _ (by simpa using h)]

theorem lookupLost_cons_neg (e : LossEntry) (rest : List LossEntry)
    (k : String) (h : ¬ e.unitType = k) :
    lookupLost (e :: rest) k = lookupLost rest k := by
  unfold lookupLost
  rw [List.find?_cons_of_neg _ (by simpa using h)]

theorem typesNodup_of_preserves {a b : List UnitTracker} (h : Preserves a b)
    (hn : TypesNodup a) : TypesNodup b := by
  unfold TypesNodup at hn ⊢
  rw [types_eq_of_preserves h]
  exact hn

theorem lostOfType_le_of_forall2 {a b : List UnitTracker}
    (h : List.Forall₂ (fun ta tb => tb.unitType = ta.unitType ∧
      tb.quantity + tb.lost = ta.quantity + ta.lost ∧ ta.lost ≤ tb.lost) a b)
    (k : String) : lostOfType a k ≤ lostOfType b k := by
  induction h with
  | nil => exact le_refl _
  | @cons ta tb as bs h1 _ ih =>
      by_cases hk : ta.unitType = k
      · rw [lostOfType_cons_pos ta as k hk,
          lostOfType_cons_pos tb bs k (h1.1.trans hk)]
        exact h1.2.2
      · rw [lostOfType_cons_neg ta as k hk,
          lostOfType_cons_neg tb bs k (fun e => hk ((h1.1.symm).trans e))]
        exact ih

theorem lostOfType_le_of_preserves {a b : List UnitTracker}
    (h : Preserves a b) (k : String) : lostOfType a k ≤ lostOfType b k :=
  lostOfType_le_of_forall2 h.forall2 k

theorem lostOfType_eq_zero_of_not_mem (l : List UnitTracker) (k : String)
    (h : k ∉ l.map (·.unitType)) : lostOfType l k = 0 := by
  unfold lostOfType
  have : l.find? (fun t => t.unitType == k) = none := by
    rw [List.find?_eq_none]
    intro t ht hbt
    exact h (List.mem_map.mpr ⟨t, ht, beq_iff_eq.mp hbt⟩)
  rw [this]

theorem find?_eq_none_of_not_mem_types (l : List UnitTracker) (k : String)
    (h : k ∉ l.map (·.unitType)) :
    l.find? (fun t => t.unitType == k) = none := by
  rw [List.find?_eq_none]
  intro t ht hbt
  exact h (List.mem_map.mpr ⟨t, ht, beq_iff_eq.mp hbt⟩)

/-! #### Snapshot and accumulator characterizations -/

theorem snapshotLostOf_getD (units : List UnitTracker) (h : TypesNodup units)
    (k : String) : mapGetD (snapshotLostOf units) k = lostOfType units k := by
  unfold snapshotLostOf
  rw [lossMapOf_getD]
  · rw [List.find?_map]
    have hcomp : ((fun p : String × ℕ => p.1 == k) ∘
        fun u : UnitTracker => (u.unitType, u.lost)) =
        (fun u : UnitTracker => u.unitType == k) := rfl
    rw [hcomp]
    unfold lostOfType
    cases hf : units.find? (fun u => u.unitType == k) <;> simp [hf]
  · simpa [List.map_map, Function.comp] using h

theorem accumulateDelta_getD (units : List UnitTracker) (before acc : LossMap)
    (k : String) (h : TypesNodup units) :
    mapGetD (accumulateDelta units before acc) k =
      mapGetD acc k +
        match units.find? (fun u => u.unitType == k) with
        | some u => u.lost - mapGetD before u.unitType
        | none => 0 := by
  unfold accumulateDelta
  induction units generalizing acc with
  | nil => simp
  | cons u rest ih =>
      unfold TypesNodup at h
      simp only [List.map_cons, List.nodup_cons] at h
      obtain ⟨hu, hrest⟩ := h
      rw [List.foldl_cons]
      dsimp only
      have step : ∀ (k' : String),
          mapGetD (if 0 < u.lost - mapGetD before u.unitType then
              mapSet acc u.unitType
                (mapGetD acc u.unitType + (u.lost - mapGetD before u.unitType))
            else acc) k' =
            if k' = u.unitType then
              mapGetD acc k' + (u.lost - mapGetD before u.unitType)
            else mapGetD acc k' := by
        intro k'
        split
        · rw [mapGetD_set]
          by_cases hk' : k' = u.unitType
          · rw [if_pos hk', if_pos hk', hk']
          · rw [if_neg hk', if_neg hk']
        · by_cases hk' : k' = u.unitType
          · have hz : u.lost - mapGetD before u.unitType = 0 := by omega
            rw [if_pos hk', hz]
            simp
          · rw [if_neg hk']
      by_cases hk : u.unitType = k
      · rw [List.find?_cons_of_pos _ (by simpa using hk)]
        have hrestf : rest.find? (fun t => t.unitType == k) = none :=
          find?_eq_none_of_not_mem_types rest k (hk ▸ hu)
        have ihr := ih
          (if 0 < u.lost - mapGetD before u.unitType then
            mapSet acc u.unitType
              (mapGetD acc u.unitType + (u.lost - mapGetD before u.unitType))
          else acc) hrest
        rw [ihr, hrestf, step k, if_pos hk.symm]
        simp
      · rw [List.find?_cons_of_neg _ (by simpa using hk)]
        have ihr := ih
          (if 0 < u.lost - mapGetD before u.unitType then
            mapSet acc u.unitType
              (mapGetD acc u.unitType + (u.lost - mapGetD before u.unitType))
          else acc) hrest
        rw [ihr, step k, if_neg (fun e => hk e.symm)]

theorem accumulateDelta_nodupKeys (units : List UnitTracker)
    (before acc : LossMap) (h : NodupKeys acc) :
    NodupKeys (accumulateDelta units before acc) := by
  unfold accumulateDelta
  induction units generalizing acc with
  | nil => exact h
  | cons u rest ih =>
      rw [List.foldl_cons]
      refine ih _ ?_
      dsimp only
      split
      · exact mapSet_nodupKeys _ _ _ h
      · exact h

/-! #### Result-list lookups -/

theorem lookupLost_nil (k : String) : lookupLost [] k = 0 := rfl

theorem lossesOf_cons (t : UnitTracker) (rest : List UnitTracker) :
    lossesOf (t :: rest) =
      (if 0 < t.lost then [⟨t.unitType, t.lost⟩] else ([] : List LossEntry)) ++
        lossesOf rest := by
  unfold lossesOf
  rw [List.filterMap_cons]
  split <;> simp_all

theorem meleeLossesOf_cons (t : UnitTracker) (rest : List UnitTracker)
    (acc : LossMap) :
    meleeLossesOf (t :: rest) acc =
      (if 0 < t.lost - mapGetD acc t.unitType then
        [⟨t.unitType, t.lost - mapGetD acc t.unitType⟩]
      else ([] : List LossEntry)) ++ meleeLossesOf rest acc := by
  unfold meleeLossesOf
  rw [List.filterMap_cons]
  dsimp only
  split <;> simp_all

theorem lookupLost_lossesOf (units : List UnitTracker) (h : TypesNodup units)
    (k : String) : lookupLost (lossesOf units) k = lostOfType units k := by
  induction units with
  | nil => rfl
  | cons t rest ih =>
      unfold TypesNodup at h
      simp only [List.map_cons, List.nodup_cons] at h
      obtain ⟨ht, hrest⟩ := h
      rw [lossesOf_cons]
      by_cases hk : t.unitType = k
      · rw [lostOfType_cons_pos t rest k hk]
        by_cases hl : 0 < t.lost
        · rw [if_pos hl, List.singleton_append, lookupLost_cons_pos _ _ _ hk]
        · rw [if_neg hl, List.nil_append, ih hrest,
            lostOfType_eq_zero_of_not_mem rest k (hk ▸ ht)]
          omega
      · rw [lostOfType_cons_neg t rest k hk]
        by_cases hl : 0 < t.lost
        · rw [if_pos hl, List.singleton_append, lookupLost_cons_neg _ _ _ hk,
            ih hrest]
        · rw [if_neg hl, List.nil_append, ih hrest]

theorem lookupLost_meleeLossesOf (units : List UnitTracker) (acc : LossMap)
    (h : TypesNodup units) (k : String) :
    lookupLost (meleeLossesOf units acc) k =
      lostOfType units k - mapGetD acc k := by
  induction units with
  | nil =>
      show (0:ℕ) = 0 - mapGetD acc k
      omega
  | cons t rest ih =>
      unfold TypesNodup at h
      simp only [List.map_cons, List.nodup_cons] at h
      obtain ⟨ht, hrest⟩ := h
      rw [meleeLossesOf_cons]
      by_cases hk : t.unitType = k
      · rw [lostOfType_cons_pos t rest k hk]
        by_cases hl : 0 < t.lost - mapGetD acc t.unitType
        · rw [if_pos hl, List.singleton_append, lookupLost_cons_pos _ _ _ hk]
          rw [hk]
        · rw [if_neg hl, List.nil_append, ih hrest,
            lostOfType_eq_zero_of_not_mem rest k (hk ▸ ht)]
          rw [hk] at hl
          omega
      · rw [lostOfType_cons_neg t rest k hk]
        by_cases hl : 0 < t.lost - mapGetD acc t.unitType
        · rw [if_pos hl, List.singleton_append, lookupLost_cons_neg _ _ _ hk,
            ih hrest]
        · rw [if_neg hl, List.nil_append, ih hrest]

theorem lookupLost_mapToLossArray (m : LossMap) (h : NodupKeys m) (k : String) :
    lookupLost (mapToLossArray m) k = mapGetD m k := by
  induction m with
  | nil => rfl
  | cons p rest ih =>
      unfold NodupKeys at h
      simp only [List.map_cons, List.nodup_cons] at h
      obtain ⟨hp, hrest⟩ := h
      have harr : mapToLossArray (p :: rest) =
          (if 0 < p.2 then [⟨p.1, p.2⟩] else ([] : List LossEntry)) ++
            mapToLossArray rest := by
        unfold mapToLossArray
        rw [List.filterMap_cons]
        split <;> simp_all
      rw [harr, mapGetD_cons]
      by_cases hk : p.1 = k
      · rw [if_pos hk]
        by_cases hv : 0 < p.2
        · rw [if_pos hv, List.singleton_append, lookupLost_cons_pos _ _ _ hk]
        · rw [if_neg hv, List.nil_append, ih hrest,
            mapGetD_eq_zero_of_not_mem rest k (hk ▸ hp)]
          omega
      · rw [if_neg hk]
        by_cases hv : 0 < p.2
        · rw [if_pos hv, List.singleton_append, lookupLost_cons_neg _ _ _ hk,
            ih hrest]
        · rw [if_neg hv, List.nil_append, ih hrest]

/-! #### Maintenance of the accumulator invariant through the loop -/

theorem rangedPhase_accInv (cfg : CombatConfig) (st : BattleState)
    (h : AccInv st) : AccInv (rangedPhase cfg st) := by
  obtain ⟨hA, hD, hKA, hKD, hBA, hBD⟩ := h
  have hPA := (rangedPhase_preserves cfg st).1
  have hPD := (rangedPhase_preserves cfg st).2
  have hA' := typesNodup_of_preserves hPA hA
  have hD' := typesNodup_of_preserves hPD hD
  have haccA : (rangedPhase cfg st).totalRangedAtkLost =
      accumulateDelta (rangedPhase cfg st).atkUnits
        (snapshotLostOf st.atkUnits) st.totalRangedAtkLost := rfl
  have haccD : (rangedPhase cfg st).totalRangedDefLost =
      accumulateDelta (rangedPhase cfg st).defUnits
        (snapshotLostOf st.defUnits) st.totalRangedDefLost := rfl
  refine ⟨hA', hD', ?_, ?_, ?_, ?_⟩
  · rw [haccA]; exact accumulateDelta_nodupKeys _ _ _ hKA
  · rw [haccD]; exact accumulateDelta_nodupKeys _ _ _ hKD
  · intro k
    rw [haccA, accumulateDelta_getD _ _ _ k hA']
    cases hf : (rangedPhase cfg st).atkUnits.find? (fun u => u.unitType == k) with
    | none =>
        have hnm : k ∉ (rangedPhase cfg st).atkUnits.map (·.unitType) := by
          intro hmem
          obtain ⟨t, ht, hteq⟩ := List.mem_map.mp hmem
          exact absurd (by simpa using hteq) (List.find?_eq_none.mp hf t ht)
        have hnm0 : k ∉ st.atkUnits.map (·.unitType) := by
          rw [← types_eq_of_preserves hPA]; exact hnm
        have hb := hBA k
        rw [lostOfType_eq_zero_of_not_mem _ _ hnm0] at hb
        rw [lostOfType_eq_zero_of_not_mem _ _ hnm]
        dsimp only
        omega
    | some u =>
        have hu : u.unitType = k := by simpa using List.find?_some hf
        have hlt : lostOfType (rangedPhase cfg st).atkUnits k = u.lost := by
          unfold lostOfType; rw [hf]
        rw [hlt]
        dsimp only
        rw [hu, snapshotLostOf_getD st.atkUnits hA k]
        have h1 := hBA k
        have h2 := lostOfType_le_of_preserves hPA k
        rw [hlt] at h2
        calc mapGetD st.totalRangedAtkLost k +
              (u.lost - lostOfType st.atkUnits k)
            ≤ lostOfType st.atkUnits k + (u.lost - lostOfType st.atkUnits k) :=
              Nat.add_le_add_right h1 _
          _ = u.lost := Nat.add_sub_cancel' h2
  · intro k
    rw [haccD, accumulateDelta_getD _ _ _ k hD']
    cases hf : (rangedPhase cfg st).defUnits.find? (fun u => u.unitType == k) with
    | none =>
        have hnm : k ∉ (rangedPhase cfg st).defUnits.map (·.unitType) := by
          intro hmem
          obtain ⟨t, ht, hteq⟩ := List.mem_map.mp hmem
          exact absurd (by simpa using hteq) (List.find?_eq_none.mp hf t ht)
        have hnm0 : k ∉ st.defUnits.map (·.unitType) := by
          rw [← types_eq_of_preserves hPD]; exact hnm
        have hb := hBD k
        rw [lostOfType_eq_zero_of_not_mem _ _ hnm0] at hb
        rw [lostOfType_eq_zero_of_not_mem _ _ hnm]
        dsimp only
        omega
    | some u =>
        have hu : u.unitType = k := by simpa using List.find?_some hf
        have hlt : lostOfType (rangedPhase cfg st).defUnits k = u.lost := by
          unfold lostOfType; rw [hf]
        rw [hlt]
        dsimp only
        rw [hu, snapshotLostOf_getD st.defUnits hD k]
        have h1 := hBD k
        have h2 := lostOfType_le_of_preserves hPD k
        rw [hlt] at h2
        calc mapGetD st.totalRangedDefLost k +
              (u.lost - lostOfType st.defUnits k)
            ≤ lostOfType st.defUnits k + (u.lost - lostOfType st.defUnits k) :=
              Nat.add_le_add_right h1 _
          _ = u.lost := Nat.add_sub_cancel' h2

theorem meleePhase_accInv (cfg : CombatConfig) (round : ℕ) (st : BattleState)
    (h : AccInv st) : AccInv (meleePhase cfg round st) := by
  obtain ⟨hA, hD, hKA, hKD, hBA, hBD⟩ := h
  have hPA := (meleePhase_preserves cfg round st).1
  have hPD := (meleePhase_preserves cfg round st).2
  have haccA : (meleePhase cfg round st).totalRangedAtkLost =
      st.totalRangedAtkLost := rfl
  have haccD : (meleePhase cfg round st).totalRangedDefLost =
      st.totalRangedDefLost := rfl
  refine ⟨typesNodup_of_preserves hPA hA, typesNodup_of_preserves hPD hD,
    haccA ▸ hKA, haccD ▸ hKD, fun k => ?_, fun k => ?_⟩
  · rw [haccA]; exact (hBA k).trans (lostOfType_le_of_preserves hPA k)
  · rw [haccD]; exact (hBD k).trans (lostOfType_le_of_preserves hPD k)

theorem runRound_accInv (cfg : CombatConfig) (round : ℕ) (st : BattleState)
    (h : AccInv st) : AccInv (runRound cfg round st).1 := by
  simp only [runRound]
  split
  · exact rangedPhase_accInv cfg st h
  · exact meleePhase_accInv cfg round _ (rangedPhase_accInv cfg st h)

theorem combatLoop_accInv (cfg : CombatConfig) :
    ∀ (fuel round : ℕ) (st : BattleState), AccInv st →
      AccInv (combatLoop cfg fuel round st).1 := by
  intro fuel
  induction fuel with
  | zero => intro round st h; exact h
  | succ n ih =>
      intro round st h
      simp only [combatLoop]
      split
      · split
        · exact runRound_accInv cfg round st h
        · exact ih (round + 1) _ (runRound_accInv cfg round st h)
      · exact h

theorem mkTrackers_typesNodup (units : List UnitGroup)
    (h : (units.map (·.unitType)).Nodup) : TypesNodup (mkTrackers units) := by
  unfold TypesNodup mkTrackers
  rw [List.map_map]
  have hcomp : ((·.unitType) ∘
      fun u : UnitGroup => (⟨u.unitType, u.quantity, 0⟩ : UnitTracker)) =
      fun u : UnitGroup => u.unitType := rfl
  rw [hcomp]
  exact List.Nodup.sublist
    (List.Sublist.map _ (List.filter_sublist units)) h

theorem initialState_accInv (a d : ArmyForCombat)
    (ha : (a.units.map (·.unitType)).Nodup)
    (hd : (d.units.map (·.unitType)).Nodup) :
    AccInv (initialState a d) := by
  refine ⟨mkTrackers_typesNodup a.units ha, mkTrackers_typesNodup d.units hd,
    ?_, ?_, ?_, ?_⟩
  · simp [NodupKeys, initialState]
  · simp [NodupKeys, initialState]
  · intro k; simp [initialState, mapGetD_nil]
  · intro k; simp [initialState, mapGetD_nil]

theorem finalState_accInv (a d : ArmyForCombat)
    (ha : (a.units.map (·.unitType)).Nodup)
    (hd : (d.units.map (·.unitType)).Nodup) :
    AccInv (finalState a d) :=
  combatLoop_accInv (configOf d) MAX_ROUNDS 0 (initialState a d)
    (initialState_accInv a d ha hd)

/-! #### Loss-entry bound -/

theorem lossesOf_mem {units : List UnitTracker} {e : LossEntry}
    (h : e ∈ lossesOf units) :
    ∃ t ∈ units, 0 < t.lost ∧ e = ⟨t.unitType, t.lost⟩ := by
  unfold lossesOf at h
  obtain ⟨t, ht, hsome⟩ := List.mem_filterMap.mp h
  refine ⟨t, ht, ?_⟩
  split at hsome
  · exact ⟨by assumption, (Option.some_inj.mp hsome).symm⟩
  · exact absurd hsome (by simp)

theorem losses_bound_of_preserves {units : List UnitGroup}
    {final : List UnitTracker} (hP : Preserves (mkTrackers units) final) :
    ∀ e ∈ lossesOf final, ∃ g ∈ units,
      g.unitType = e.unitType ∧ e.lost ≤ g.quantity := by
  intro e he
  obtain ⟨t, ht, hpos, he'⟩ := lossesOf_mem he
  obtain ⟨i, hi, hti⟩ := List.mem_iff_getElem.mp ht
  have hlen : final.length = (mkTrackers units).length := hP.1
  have hi' : i < (mkTrackers units).length := hlen ▸ hi
  have hgetb : final.getD i default = t := by
    rw [List.getD_eq_getElem?_getD, List.getElem?_eq_getElem hi, hti]
    rfl
  have hrel := hP.2 i
  rw [hgetb] at hrel
  have ht0mem : (mkTrackers units).getD i default ∈ mkTrackers units := by
    rw [List.getD_eq_getElem?_getD, List.getElem?_eq_getElem hi']
    exact List.getElem_mem hi'
  have ht0mem' : (mkTrackers units).getD i default ∈
      (units.filter (fun u => 0 < u.quantity)).map
        (fun u => (⟨u.unitType, u.quantity, 0⟩ : UnitTracker)) := ht0mem
  obtain ⟨g, hgf, hgt⟩ := List.mem_map.mp ht0mem'
  have hgmem := (List.mem_filter.mp hgf).1
  refine ⟨g, hgmem, ?_, ?_⟩
  · rw [he']
    show g.unitType = t.unitType
    rw [hrel.1, ← hgt]
  · rw [he']
    show t.lost ≤ g.quantity
    have hsum := hrel.2.1
    rw [← hgt] at hsum
    simp only at hsum
    omega

/-- **C2** — Conservation of `quantity + lost`: every phase function and
the whole round loop preserve, tracker by tracker, the unit type and the
sum `quantity + lost` (with a monotone loss counter), so the loop-exit
trackers conserve the initial quantities; every entry of the reported
loss lists is bounded by the corresponding input group's quantity; and
for inputs whose unit types are distinct per side, the ranged-phase plus
melee-phase casualty breakdown of a unit type sums to its total reported
loss. -/
theorem conservation_invariant (a d : ArmyForCombat) :
    (∀ (cfg : CombatConfig) (st : BattleState),
        Preserves st.atkUnits (rangedPhase cfg st).atkUnits ∧
        Preserves st.defUnits (rangedPhase cfg st).defUnits) ∧
    (∀ (cfg : CombatConfig) (round : ℕ) (st : BattleState),
        Preserves st.atkUnits (meleePhase cfg round st).atkUnits ∧
        Preserves st.defUnits (meleePhase cfg round st).defUnits) ∧
    (Preserves (mkTrackers a.units) (finalState a d).atkUnits ∧
      Preserves (mkTrackers d.units) (finalState a d).defUnits) ∧
    (∀ e ∈ (resolveCombat a d).attackerLosses, ∃ g ∈ a.units,
        g.unitType = e.unitType ∧ e.lost ≤ g.quantity) ∧
    (∀ e ∈ (resolveCombat a d).defenderLosses, ∃ g ∈ d.units,
        g.unitType = e.unitType ∧ e.lost ≤ g.quantity) ∧
    ((a.units.map (·.unitType)).Nodup → (d.units.map (·.unitType)).Nodup →
      ∀ k : String,
        lookupLost (resolveCombat a d).ranged.attackerCasualties k +
            lookupLost (resolveCombat a d).melee.attackerCasualties k =
          lookupLost (resolveCombat a d).attackerLosses k ∧
        lookupLost (resolveCombat a d).ranged.defenderCasualties k +
            lookupLost (resolveCombat a d).melee.defenderCasualties k =
          lookupLost (resolveCombat a d).defenderLosses k) := by
  refine ⟨rangedPhase_preserves, meleePhase_preserves, finalState_preserves a d,
    losses_bound_of_preserves (finalState_preserves a d).1,
    losses_bound_of_preserves (finalState_preserves a d).2, ?_⟩
  intro ha hd k
  obtain ⟨hA, hD, hKA, hKD, hBA, hBD⟩ := finalState_accInv a d ha hd
  have e1 : (resolveCombat a d).ranged.attackerCasualties =
      mapToLossArray (finalState a d).totalRangedAtkLost := rfl
  have e2 : (resolveCombat a d).melee.attackerCasualties =
      meleeLossesOf (finalState a d).atkUnits (finalState a d).totalRangedAtkLost := rfl
  have e3 : (resolveCombat a d).attackerLosses =
      lossesOf (finalState a d).atkUnits := rfl
  have e4 : (resolveCombat a d).ranged.defenderCasualties =
      mapToLossArray (finalState a d).totalRangedDefLost := rfl
  have e5 : (resolveCombat a d).melee.defenderCasualties =
      meleeLossesOf (finalState a d).defUnits (finalState a d).totalRangedDefLost := rfl
  have e6 : (resolveCombat a d).defenderLosses =
      lossesOf (finalState a d).defUnits := rfl
  constructor
  · rw [e1, e2, e3, lookupLost_mapToLossArray _ hKA,
      lookupLost_meleeLossesOf _ _ hA, lookupLost_lossesOf _ hA]
    have := hBA k
    omega
  · rw [e4, e5, e6, lookupLost_mapToLossArray _ hKD,
      lookupLost_meleeLossesOf _ _ hD, lookupLost_lossesOf _ hD]
    have := hBD k
    omega

/-- Witness for **C2** at the mutual-wipe duel (each side one INFANTRY):
the loop-exit trackers conserve the initial quantity, the reported loss
is bounded by the input quantity, and the phase breakdown sums to the
total loss. -/
theorem conservation_invariant_witness :
    (Preserves (mkTrackers duelAtk.units) (finalState duelAtk duelDef).atkUnits) ∧
      (∃ g ∈ duelAtk.units, g.unitType = "INFANTRY" ∧ 1 ≤ g.quantity) ∧
      lookupLost (resolveCombat duelAtk duelDef).ranged.attackerCasualties "INFANTRY" +
          lookupLost (resolveCombat duelAtk duelDef).melee.attackerCasualties "INFANTRY" =
        lookupLost (resolveCombat duelAtk duelDef).attackerLosses "INFANTRY" := by
  refine ⟨(conservation_invariant duelAtk duelDef).2.2.1.1, ?_, ?_⟩
  · have hmem : (⟨"INFANTRY", 1⟩ : LossEntry) ∈
        (resolveCombat duelAtk duelDef).attackerLosses := by
      have : (resolveCombat duelAtk duelDef).attackerLosses =
          [⟨"INFANTRY", 1⟩] := by with_unfolding_all rfl
      rw [this]
      exact List.mem_singleton.mpr rfl
    exact (conservation_invariant duelAtk duelDef).2.2.2.1 _ hmem
  · exact ((conservation_invariant duelAtk duelDef).2.2.2.2.2
      (of_decide_eq_true (by with_unfolding_all rfl))
      (of_decide_eq_true (by with_unfolding_all rfl)) "INFANTRY").1

/-! ### C4 — defender ranged fire consumes the pool slowest-first -/

theorem speedOrderStep_nonpos (st : List UnitTracker × ℚ) (j : ℕ)
    (h : st.2 ≤ 0) : speedOrderStep st j = st := by
  simp only [speedOrderStep, if_pos h]

theorem foldl_speedOrderStep_nonpos (idxs : List ℕ) (ts : List UnitTracker)
    (rem : ℚ) (h : rem ≤ 0) :
    idxs.foldl speedOrderStep (ts, rem) = (ts, rem) := by
  induction idxs with
  | nil => rfl
  | cons j rest ih =>
      rw [List.foldl_cons, speedOrderStep_nonpos (ts, rem) j h, ih]

theorem getD_set_self (l : List UnitTracker) (j : ℕ) (x : UnitTracker)
    (h : j < l.length) : (l.set j x).getD j default = x := by
  rw [List.getD_eq_getElem?_getD, List.getElem?_set_eq_of_lt x h]
  rfl

theorem getD_set_ne (l : List UnitTracker) (j i : ℕ) (x : UnitTracker)
    (h : j ≠ i) : (l.set j x).getD i default = l.getD i default := by
  rw [List.getD_eq_getElem?_getD, List.getElem?_set_ne h,
    ← List.getD_eq_getElem?_getD]

theorem map_getD_set_ne (rest : List ℕ) (ts : List UnitTracker) (j : ℕ)
    (x : UnitTracker) (h : j ∉ rest) :
    rest.map (fun i => (ts.set j x).getD i default) =
      rest.map (fun i => ts.getD i default) := by
  induction rest with
  | nil => rfl
  | cons i r ih =>
      simp only [List.mem_cons] at h
      push_neg at h
      rw [List.map_cons, List.map_cons, getD_set_ne ts j i x h.1, ih h.2]

/-- The speed-order fold over any duplicate-free in-bounds position list
computes exactly the spec-side group-by-group pool consumption, read
along those positions, leaves other positions untouched, agrees on the
remaining pool, and preserves the list length. -/
theorem foldl_speedOrder_spec :
    ∀ (idxs : List ℕ) (ts : List UnitTracker) (dmg : ℚ),
      idxs.Nodup → (∀ i ∈ idxs, i < ts.length) →
      (idxs.map (fun i => ((idxs.foldl speedOrderStep (ts, dmg)).1).getD i default) =
          (specConsumePool dmg (idxs.map (fun i => ts.getD i default))).1) ∧
        (∀ j, j ∉ idxs →
          ((idxs.foldl speedOrderStep (ts, dmg)).1).getD j default =
            ts.getD j default) ∧
        ((idxs.foldl speedOrderStep (ts, dmg)).2 =
          (specConsumePool dmg (idxs.map (fun i => ts.getD i default))).2) ∧
        ((idxs.foldl speedOrderStep (ts, dmg)).1).length = ts.length := by
  intro idxs
  induction idxs with
  | nil => intro ts dmg _ _; exact ⟨rfl, fun j _ => rfl, rfl, rfl⟩
  | cons j rest ih =>
      intro ts dmg hnd hlt
      simp only [List.nodup_cons] at hnd
      obtain ⟨hj, hndr⟩ := hnd
      have hjlen : j < ts.length := hlt j (List.mem_cons_self j rest)
      have hltr : ∀ i ∈ rest, i < ts.length :=
        fun i hi => hlt i (List.mem_cons_of_mem j hi)
      by_cases hdmg : dmg ≤ 0
      · rw [foldl_speedOrderStep_nonpos (j :: rest) ts dmg hdmg]
        have hspec : specConsumePool dmg
            ((j :: rest).map (fun i => ts.getD i default)) =
            ((j :: rest).map (fun i => ts.getD i default), dmg) := by
          rw [List.map_cons]
          simp only [specConsumePool, if_pos hdmg]
        rw [hspec]
        exact ⟨rfl, fun _ _ => rfl, rfl, rfl⟩
      · rw [List.foldl_cons]
        cases hstats : UNIT_STATS ((ts.getD j default).unitType) with
        | none =>
            have hstep : speedOrderStep (ts, dmg) j = (ts, dmg) := by
              simp only [speedOrderStep, if_neg hdmg, hstats]
            rw [hstep]
            obtain ⟨ih1, ih2, ih3, ih4⟩ := ih ts dmg hndr hltr
            simp only [List.map_cons, specConsumePool, if_neg hdmg, hstats]
            refine ⟨?_, ?_, ih3, ih4⟩
            · rw [ih2 j hj, ih1]
            · intro j' hj'
              simp only [List.mem_cons] at hj'
              push_neg at hj'
              exact ih2 j' hj'.2
        | some s =>
            by_cases hq : (ts.getD j default).quantity = 0
            · have hstep : speedOrderStep (ts, dmg) j = (ts, dmg) := by
                simp only [speedOrderStep, if_neg hdmg, hstats, if_pos hq]
              rw [hstep]
              obtain ⟨ih1, ih2, ih3, ih4⟩ := ih ts dmg hndr hltr
              simp only [List.map_cons, specConsumePool, if_neg hdmg, hstats,
                if_pos hq]
              refine ⟨?_, ?_, ih3, ih4⟩
              · rw [ih2 j hj, ih1]
              · intro j' hj'
                simp only [List.mem_cons] at hj'
                push_neg at hj'
                exact ih2 j' hj'.2
            · by_cases hwipe : ((ts.getD j default).quantity : ℚ) * s.defense ≤
                  dmg * triangleOr1 "ARCHER" (ts.getD j default).unitType
              · have hstep : speedOrderStep (ts, dmg) j =
                    (ts.set j ⟨(ts.getD j default).unitType, 0,
                        (ts.getD j default).lost + (ts.getD j default).quantity⟩,
                      dmg - ((ts.getD j default).quantity : ℚ) * s.defense /
                        triangleOr1 "ARCHER" (ts.getD j default).unitType) := by
                  simp only [speedOrderStep, if_neg hdmg, hstats, if_neg hq,
                    if_pos hwipe]
                rw [hstep]
                obtain ⟨ih1, ih2, ih3, ih4⟩ := ih
                  (ts.set j ⟨(ts.getD j default).unitType, 0,
                    (ts.getD j default).lost + (ts.getD j default).quantity⟩)
                  (dmg - ((ts.getD j default).quantity : ℚ) * s.defense /
                    triangleOr1 "ARCHER" (ts.getD j default).unitType)
                  hndr
                  (by intro i hi; simpa [List.length_set] using hltr i hi)
                simp only [List.map_cons, specConsumePool, if_neg hdmg, hstats,
                  if_neg hq, if_pos hwipe]
                rw [map_getD_set_ne rest ts j _ hj] at ih1 ih3
                refine ⟨?_, ?_, ih3, by
                  rw [ih4, List.length_set]⟩
                · rw [ih2 j hj, getD_set_self ts j _ hjlen, ih1]
                · intro j' hj'
                  simp only [List.mem_cons] at hj'
                  push_neg at hj'
                  rw [ih2 j' hj'.2, getD_set_ne ts j j' _ (fun e => hj'.1 e.symm)]
              · have hstep : speedOrderStep (ts, dmg) j =
                    (ts.set j ⟨(ts.getD j default).unitType,
                        (ts.getD j default).quantity -
                          Int.toNat ⌊dmg * triangleOr1 "ARCHER" (ts.getD j default).unitType / s.defense⌋,
                        (ts.getD j default).lost +
                          Int.toNat ⌊dmg * triangleOr1 "ARCHER" (ts.getD j default).unitType / s.defense⌋⟩,
                      0) := by
                  simp only [speedOrderStep, if_neg hdmg, hstats, if_neg hq,
                    if_neg hwipe]
                rw [hstep, foldl_speedOrderStep_nonpos rest _ 0 (le_refl 0)]
                simp only [List.map_cons, specConsumePool, if_neg hdmg, hstats,
                  if_neg hq, if_neg hwipe]
                refine ⟨?_, ?_, trivial, List.length_set ts j _⟩
                · rw [getD_set_self ts j _ hjlen, map_getD_set_ne rest ts j _ hj]
                · intro j' hj'
                  simp only [List.mem_cons] at hj'
                  push_neg at hj'
                  rw [getD_set_ne ts j j' _ (fun e => hj'.1 e.symm)]

theorem speedSortedIdx_sorted (ts : List UnitTracker) :
    (speedSortedIdx ts).Pairwise (fun i j =>
      statSpeed (ts.getD i default).unitType ≤
        statSpeed (ts.getD j default).unitType) := by
  unfold speedSortedIdx
  letI : IsTotal ℕ (fun i j =>
      statSpeed (ts.getD i default).unitType ≤
        statSpeed (ts.getD j default).unitType) := ⟨fun _ _ => le_total _ _⟩
  letI : IsTrans ℕ (fun i j =>
      statSpeed (ts.getD i default).unitType ≤
        statSpeed (ts.getD j default).unitType) :=
    ⟨fun _ _ _ hab hbc => le_trans hab hbc⟩
  exact List.sorted_insertionSort _ _

theorem speedSortedIdx_perm (ts : List UnitTracker) :
    (speedSortedIdx ts).Perm
      ((List.range ts.length).filter
        (fun i => 0 < (ts.getD i default).quantity)) := by
  unfold speedSortedIdx
  exact List.perm_insertionSort _ _

/-- **C4** — The defender's combined archer-plus-guard-tower ranged
damage is applied to the attacker's unit groups in ascending speed order,
slowest group first: the ranged sub-phase calls the speed-order applier
with the combined pool; the processing order is exactly the live groups
sorted by nondecreasing unit speed; processed along that order, the
applier computes precisely the spec-side group-by-group pool consumption
(full wipe when `hpPool ≤ remaining × triangle`, consuming
`hpPool / triangle`; otherwise `floor(effectiveDamage / defense)` kills
and pool exhausted); positions outside the order are untouched. -/
theorem ranged_speed_order_characterization (dmg : ℚ) (ts : List UnitTracker) :
    (∀ (cfg : CombatConfig) (st : BattleState),
        (rangedPhase cfg st).atkUnits =
          if 0 < archerRaw st.defUnits + cfg.guardTowerDmg then
            applyRangedSpeedOrder (archerRaw st.defUnits + cfg.guardTowerDmg)
              st.atkUnits
          else st.atkUnits) ∧
    (speedSortedIdx ts).Pairwise (fun i j =>
        statSpeed (ts.getD i default).unitType ≤
          statSpeed (ts.getD j default).unitType) ∧
    (speedSortedIdx ts).Perm
      ((List.range ts.length).filter
        (fun i => 0 < (ts.getD i default).quantity)) ∧
    ((speedSortedIdx ts).map
        (fun i => (applyRangedSpeedOrder dmg ts).getD i default) =
      (specConsumePool dmg
        ((speedSortedIdx ts).map (fun i => ts.getD i default))).1) ∧
    (∀ i, i ∉ speedSortedIdx ts →
      (applyRangedSpeedOrder dmg ts).getD i default = ts.getD i default) := by
  have hperm := speedSortedIdx_perm ts
  have hnd : (speedSortedIdx ts).Nodup :=
    hperm.nodup_iff.mpr (List.Nodup.filter _ (List.nodup_range _))
  have hbound : ∀ i ∈ speedSortedIdx ts, i < ts.length := by
    intro i hi
    have h1 := hperm.mem_iff.mp hi
    have h2 := (List.mem_filter.mp h1).1
    exact List.mem_range.mp h2
  have key := foldl_speedOrder_spec (speedSortedIdx ts) ts dmg hnd hbound
  exact ⟨fun cfg st => rfl, speedSortedIdx_sorted ts, hperm, key.1,
    fun i hi => key.2.1 i hi⟩

/-- Witness for **C4**: heavy infantry (speed 0.3) is processed before
cavalry (speed 1.0), and an out-of-range position is untouched. -/
theorem ranged_speed_order_witness :
    speedSortedIdx [⟨"CAVALRY", 2, 0⟩, ⟨"HEAVY_INFANTRY", 3, 0⟩] = [1, 0] ∧
      (applyRangedSpeedOrder 100 [⟨"CAVALRY", 2, 0⟩, ⟨"HEAVY_INFANTRY", 3, 0⟩]).getD
          5 default =
        ([⟨"CAVALRY", 2, 0⟩, ⟨"HEAVY_INFANTRY", 3, 0⟩] : List UnitTracker).getD
          5 default ∧
      ([1, 0].map
          (fun i => (applyRangedSpeedOrder 100
            [⟨"CAVALRY", 2, 0⟩, ⟨"HEAVY_INFANTRY", 3, 0⟩]).getD i default) =
        (specConsumePool 100
          ([1, 0].map
            (fun i => ([⟨"CAVALRY", 2, 0⟩, ⟨"HEAVY_INFANTRY", 3, 0⟩] :
              List UnitTracker).getD i default))).1) := by
  have hidx : speedSortedIdx [⟨"CAVALRY", 2, 0⟩, ⟨"HEAVY_INFANTRY", 3, 0⟩] =
      [1, 0] := by with_unfolding_all rfl
  refine ⟨hidx, ?_, ?_⟩
  · exact (ranged_speed_order_characterization 100
      [⟨"CAVALRY", 2, 0⟩, ⟨"HEAVY_INFANTRY", 3, 0⟩]).2.2.2.2 5
      (of_decide_eq_true (by with_unfolding_all rfl))
  · have h := (ranged_speed_order_characterization 100
      [⟨"CAVALRY", 2, 0⟩, ⟨"HEAVY_INFANTRY", 3, 0⟩]).2.2.2.1
    rw [hidx] at h
    exact h

/-! ### C7 — tick idempotence under the debounce window -/

/-- The player-id keys of the resources table. -/
def resKeys (db : GameDB) : List String := db.playerResources.map (·.1)

theorem playerResources_foldl {α : Type} (f : GameDB → α → GameDB)
    (l : List α) (db : GameDB)
    (h : ∀ w a, (f w a).playerResources = w.playerResources) :
    (l.foldl f db).playerResources = db.playerResources := by
  induction l generalizing db with
  | nil => rfl
  | cons a t ih => rw [List.foldl_cons, ih, h]

theorem resKeys_congr (db1 db2 : GameDB)
    (h : db1.playerResources = db2.playerResources) :
    resKeys db1 = resKeys db2 := by
  unfold resKeys
  rw [h]

theorem resKeys_updateRes (db : GameDB) (k : String)
    (f : PlayerResources → PlayerResources) :
    resKeys (updateRes db k f) = resKeys db := by
  unfold resKeys updateRes
  dsimp only
  rw [List.map_map]
  apply List.map_congr_left
  intro p _
  dsimp only [Function.comp]
  split <;> rfl

theorem resKeys_addEvent (db : GameDB) (e : GameEvent) :
    resKeys (addEvent db e) = resKeys db := rfl

theorem resKeys_updateArmy (db : GameDB) (aid : ℕ) (f : Army → Army) :
    resKeys (updateArmy db aid f) = resKeys db := rfl

theorem resKeys_updateTile (db : GameDB) (tid : ℕ) (f : MapTile → MapTile) :
    resKeys (updateTile db tid f) = resKeys db := rfl

theorem resKeys_deleteArmy (db : GameDB) (aid : ℕ) :
    resKeys (deleteArmy db aid) = resKeys db := rfl

theorem resKeys_updateSettlementRow (db : GameDB) (sid : ℕ)
    (f : Settlement → Settlement) :
    resKeys (updateSettlementRow db sid f) = resKeys db := rfl

theorem pr_applyAttackerLosses (army : Army) (losses : List LossEntry)
    (db : GameDB) :
    (applyAttackerLosses army losses db).playerResources =
      db.playerResources := by
  unfold applyAttackerLosses
  apply playerResources_foldl
  intro w loss
  dsimp only
  split
  · split <;> rfl
  · rfl

theorem pr_pvpDefenderLosses (target : Settlement)
    (losses : List LossEntry) (db : GameDB) :
    (pvpDefenderLosses target losses db).playerResources =
      db.playerResources := by
  unfold pvpDefenderLosses
  apply playerResources_foldl
  intro w loss
  dsimp only
  split <;> rfl

theorem pr_destroyDefenses (defenses : List Defense) (db : GameDB) :
    (destroyDefenses defenses db).playerResources = db.playerResources := by
  unfold destroyDefenses
  apply playerResources_foldl
  intro w defense
  dsimp only
  split <;> rfl

theorem pr_mergeArmyUnits (sid : ℕ) (units : List ArmyUnit) (db : GameDB) :
    (mergeArmyUnits sid units db).playerResources = db.playerResources := by
  unfold mergeArmyUnits
  apply playerResources_foldl
  intro w au
  dsimp only
  split
  · rfl
  · split <;> rfl

theorem pr_returningArrival (pid : String) (army : Army) (db : GameDB) :
    (returningArrival pid army db).playerResources = db.playerResources := by
  unfold returningArrival
  dsimp only
  split
  · exact pr_mergeArmyUnits _ _ _
  · rfl

theorem pr_scoutArrival (now : ℚ) (pid : String) (army : Army)
    (destTile : Option MapTile) (faction : Option NPCFactionRow)
    (acc : GameDB × List ℚ) :
    (scoutArrival now pid army destTile faction acc).1.playerResources =
      acc.1.playerResources := by
  unfold scoutArrival
  dsimp only
  split <;> rfl

theorem pr_peacefulArrival (pid : String) (army : Army) (db : GameDB) :
    (peacefulArrival pid army db).playerResources = db.playerResources := rfl

theorem pr_completeBuildings (completed : List Building) (db : GameDB) :
    (completeBuildings completed db).playerResources = db.playerResources := by
  unfold completeBuildings
  apply playerResources_foldl
  intro w b
  rfl

theorem pr_completeResearch (now : ℚ) (pid : String)
    (ar : Option ActiveResearch) (rs : List ResearchState) (db : GameDB) :
    (completeResearch now pid ar rs db).playerResources =
      db.playerResources := by
  unfold completeResearch
  split
  · rfl
  · dsimp only
    split
    · split <;> rfl
    · rfl

theorem pr_completeQueuesFor (now : ℚ) (pid : String) (s : Settlement)
    (db : GameDB) :
    (completeQueuesFor now pid s db).playerResources = db.playerResources := by
  unfold completeQueuesFor
  apply playerResources_foldl
  intro w q
  dsimp only
  split <;> rfl

theorem pr_completeQueues (now : ℚ) (pid : String)
    (settlements : List Settlement) (db : GameDB) :
    (completeQueues now pid settlements db).playerResources =
      db.playerResources := by
  unfold completeQueues
  apply playerResources_foldl
  intro w s
  exact pr_completeQueuesFor now pid s w

theorem resKeys_npcArrival (now : ℚ) (pid : String) (army : Army)
    (tile : MapTile) (faction : NPCFactionRow) (db : GameDB) :
    resKeys (npcArrival now pid army tile faction db) = resKeys db := by
  unfold npcArrival
  dsimp only
  split
  · rw [resKeys_addEvent, resKeys_updateArmy, resKeys_updateTile]
    split
    · rw [resKeys_updateRes]
      exact resKeys_congr _ _ (pr_applyAttackerLosses _ _ _)
    · exact resKeys_congr _ _ (pr_applyAttackerLosses _ _ _)
  · rw [resKeys_addEvent, resKeys_deleteArmy]

theorem resKeys_pvpArrival (now : ℚ) (pid : String) (army : Army)
    (tile : MapTile) (owner : String) (db : GameDB) :
    resKeys (pvpArrival now pid army tile owner db) = resKeys db := by
  unfold pvpArrival
  dsimp only
  split
  · rw [resKeys_addEvent, resKeys_updateArmy]
  · split
    · rw [resKeys_addEvent, resKeys_addEvent, resKeys_updateArmy]
      split
      · rw [resKeys_updateRes, resKeys_updateRes]
        split
        · rw [resKeys_updateSettlementRow]
          exact resKeys_congr _ _
            (((pr_destroyDefenses _ _).trans (pr_pvpDefenderLosses _ _ _)).trans
              (pr_applyAttackerLosses _ _ _))
        · exact resKeys_congr _ _ (pr_applyAttackerLosses _ _ _)
      · split
        · rw [resKeys_updateSettlementRow]
          exact resKeys_congr _ _
            (((pr_destroyDefenses _ _).trans (pr_pvpDefenderLosses _ _ _)).trans
              (pr_applyAttackerLosses _ _ _))
        · exact resKeys_congr _ _ (pr_applyAttackerLosses _ _ _)
    · rw [resKeys_addEvent, resKeys_addEvent, resKeys_deleteArmy]
      split
      · exact resKeys_congr _ _ (pr_pvpDefenderLosses _ _ _)
      · rfl

theorem resKeys_armyArrivalStep (now : ℚ) (pid : String)
    (acc : GameDB × List ℚ) (army : Army) :
    resKeys (armyArrivalStep now pid acc army).1 = resKeys acc.1 := by
  unfold armyArrivalStep
  dsimp only
  split
  · rfl
  · split
    · rfl
    · split
      · exact resKeys_congr _ _ (pr_returningArrival _ _ _)
      · split
        · exact resKeys_congr _ _ (pr_scoutArrival _ _ _ _ _ _)
        · split
          · exact resKeys_npcArrival _ _ _ _ _ _
          · split
            · split
              · split
                · split
                  · rfl
                  · exact resKeys_pvpArrival _ _ _ _ _ _
                · rfl
              · rfl
            · rfl

theorem resKeys_armyArrivals (now : ℚ) (pid : String) (armies : List Army)
    (db : GameDB) (rnd : List ℚ) :
    resKeys (armyArrivals now pid armies db rnd).1 = resKeys db := by
  unfold armyArrivals
  suffices h : ∀ (l : List Army) (acc : GameDB × List ℚ),
      resKeys (l.foldl (armyArrivalStep now pid) acc).1 = resKeys acc.1 by
    exact h armies (db, rnd)
  intro l
  induction l with
  | nil => intro acc; rfl
  | cons a t ih =>
      intro acc
      rw [List.foldl_cons, ih, resKeys_armyArrivalStep]

theorem resKeys_bodyPipeline (now : ℚ) (pid : String) (rnd : List ℚ)
    (completed : List Building) (ar : Option ActiveResearch)
    (rs : List ResearchState) (settlements : List Settlement)
    (armies : List Army) (db : GameDB) :
    resKeys (armyArrivals now pid armies
      (completeQueues now pid settlements
        (completeResearch now pid ar rs
          (completeBuildings completed db))) rnd).1 = resKeys db := by
  rw [resKeys_armyArrivals]
  exact resKeys_congr _ _
    (((pr_completeQueues _ _ _ _).trans (pr_completeResearch _ _ _ _ _)).trans
      (pr_completeBuildings _ _))

theorem find_map_updateKey (l : List (String × PlayerResources)) (k : String)
    (f : PlayerResources → PlayerResources) :
    ((l.map (fun p => if p.1 == k then (p.1, f p.2) else p)).find?
        (fun p => p.1 == k)).map (·.2) =
      ((l.find? (fun p => p.1 == k)).map (·.2)).map f := by
  induction l with
  | nil => rfl
  | cons p t ih =>
      by_cases h : p.1 = k
      · have hb : (p.1 == k) = true := by simpa using h
        simp only [List.map_cons, List.find?_cons, hb, eq_self_iff_true,
          if_true]
        rfl
      · have hb : (p.1 == k) = false := by simpa using h
        simp only [List.map_cons, List.find?_cons, hb, Bool.false_eq_true,
          if_false]
        exact ih

theorem findRes_updateRes_self (db : GameDB) (k : String)
    (f : PlayerResources → PlayerResources) :
    findRes (updateRes db k f) k = (findRes db k).map f := by
  unfold findRes updateRes
  exact find_map_updateKey _ _ _

theorem mem_resKeys_of_findRes (db : GameDB) (pid : String)
    (r : PlayerResources) (h : findRes db pid = some r) :
    pid ∈ resKeys db := by
  unfold findRes at h
  unfold resKeys
  obtain ⟨a, hfind, ha2⟩ := Option.map_eq_some'.mp h
  have hkey := List.find?_some hfind
  exact List.mem_map.mpr
    ⟨a, List.mem_of_find?_eq_some hfind, by simpa using hkey⟩

theorem findRes_some_of_mem (db : GameDB) (pid : String)
    (h : pid ∈ resKeys db) : ∃ c, findRes db pid = some c := by
  unfold resKeys at h
  obtain ⟨p, hmem, hp1⟩ := List.mem_map.mp h
  unfold findRes
  have hs : (db.playerResources.find? (fun q => q.1 == pid)).isSome := by
    rw [List.find?_isSome]
    exact ⟨p, hmem, by simp [hp1]⟩
  obtain ⟨a, ha⟩ := Option.isSome_iff_exists.mp hs
  exact ⟨a.2, by rw [ha]; rfl⟩

theorem findRes_processTickBody (now : ℚ) (pid : String) (rnd : List ℚ)
    (db : GameDB) (resources : PlayerResources) (hmem : pid ∈ resKeys db) :
    ∃ c, findRes (processTickBody now pid rnd db resources) pid = some c ∧
      c.lastTickAt = now := by
  unfold processTickBody
  dsimp only
  rw [findRes_updateRes_self]
  obtain ⟨c0, hc0⟩ := findRes_some_of_mem
    ((armyArrivals now pid (tickArmies db pid)
      (completeQueues now pid (tickSettlements db pid)
        (completeResearch now pid (tickActiveResearch db pid)
          (tickResearchStates db pid)
          (completeBuildings (tickCompletedBuildings now db pid) db))) rnd).1)
    pid (by rw [resKeys_bodyPipeline]; exact hmem)
  rw [hc0]
  exact ⟨_, rfl, rfl⟩

theorem tick_noop_none (t : ℚ) (pid : String) (rnd : List ℚ) (db : GameDB)
    (h : findRes db pid = none) : processPlayerTick t pid rnd db = db := by
  unfold processPlayerTick
  rw [h]

theorem tick_noop_debounced (t : ℚ) (pid : String) (rnd : List ℚ)
    (db : GameDB) (r : PlayerResources) (hr : findRes db pid = some r)
    (h : t - r.lastTickAt < DEBOUNCE_MS) :
    processPlayerTick t pid rnd db = db := by
  unfold processPlayerTick
  rw [hr]
  dsimp only
  rw [if_pos h]

theorem tick_stamps_lastTickAt (now : ℚ) (pid : String) (rnd : List ℚ)
    (db : GameDB) (r : PlayerResources) (hr : findRes db pid = some r)
    (h : ¬ now - r.lastTickAt < DEBOUNCE_MS) :
    ∃ c, findRes (processPlayerTick now pid rnd db) pid = some c ∧
      c.lastTickAt = now := by
  unfold processPlayerTick
  rw [hr]
  dsimp only
  rw [if_neg h]
  exact findRes_processTickBody now pid rnd db r
    (mem_resKeys_of_findRes db pid r hr)

/-- Counterexample for **C7**: the claim concludes that two invocations
within `DEBOUNCE_MS` of each other always leave the state as after the
first alone.  But when the first call is itself debounced (a no-op), the
second call is compared against the old `lastTickAt` and can process.
With `lastTickAt = 0`, calls at t₁ = 4000 and t₂ = 8000 are 4000 ms
apart (within the 5000 ms window); the first is a no-op, yet the second
processes and changes the state (it accrues resources and stamps
`lastTickAt = 8000`). -/
theorem tick_double_call_counterexample :
    ((4000 : ℚ) - 0 < DEBOUNCE_MS) ∧ ((8000 : ℚ) - 4000 < DEBOUNCE_MS) ∧
      processPlayerTick 4000 "p1" [] tickDb0 = tickDb0 ∧
      processPlayerTick 8000 "p1" []
          (processPlayerTick 4000 "p1" [] tickDb0) ≠
        processPlayerTick 4000 "p1" [] tickDb0 := by
  refine ⟨by norm_num [DEBOUNCE_MS], by norm_num [DEBOUNCE_MS],
    by with_unfolding_all rfl, of_decide_eq_true (by with_unfolding_all rfl)⟩

/-- **C7 (amended)** — for every database state, player and random
stream: `processPlayerTick` is a silent no-op (the whole state, every
player's rows included, is returned unchanged) when the player has no
resource record, and when less than `DEBOUNCE_MS` (5000 ms) has elapsed
since the player's `lastTickAt`; consequently, when a call actually
processes (a record exists and the window has elapsed), it stamps
`lastTickAt` with its own time, so any second call within `DEBOUNCE_MS`
of it is a no-op, leaving the state identical to the state after the
first call alone.  (If the first call is itself debounced, the second
call may process — see the counterexample.) -/
theorem tick_debounce_amended (db : GameDB) (pid : String)
    (r1 r2 : List ℚ) (t1 t2 : ℚ) :
    (findRes db pid = none → processPlayerTick t1 pid r1 db = db) ∧
    (∀ r : PlayerResources, findRes db pid = some r →
        t1 - r.lastTickAt < DEBOUNCE_MS →
        processPlayerTick t1 pid r1 db = db) ∧
    (∀ r : PlayerResources, findRes db pid = some r →
        DEBOUNCE_MS ≤ t1 - r.lastTickAt → t2 - t1 < DEBOUNCE_MS →
        processPlayerTick t2 pid r2 (processPlayerTick t1 pid r1 db) =
          processPlayerTick t1 pid r1 db) := by
  refine ⟨tick_noop_none t1 pid r1 db,
    fun r hr h => tick_noop_debounced t1 pid r1 db r hr h,
    fun r hr h1 h2 => ?_⟩
  obtain ⟨c, hc, hlast⟩ :=
    tick_stamps_lastTickAt t1 pid r1 db r hr (not_lt.mpr h1)
  exact tick_noop_debounced t2 pid r2 _ c hc (by rw [hlast]; exact h2)

/-- Witness for **C7 (amended)**: with `lastTickAt = 0`, a call at
t₁ = 6000 processes, and a second call at t₂ = 9000 (3000 ms later) is a
no-op; a call for a player with no resource record and a debounced call
are no-ops. -/
theorem tick_debounce_amended_witness :
    processPlayerTick 9000 "p1" [] (processPlayerTick 6000 "p1" [] tickDb0) =
        processPlayerTick 6000 "p1" [] tickDb0 ∧
      processPlayerTick 7 "nobody" [] tickDb0 = tickDb0 ∧
      processPlayerTick 4000 "p1" [] tickDb0 = tickDb0 := by
  refine ⟨?_, ?_, ?_⟩
  · exact (tick_debounce_amended tickDb0 "p1" [] [] 6000 9000).2.2 tickRes0
      (by with_unfolding_all rfl) (by norm_num [DEBOUNCE_MS, tickRes0])
      (by norm_num [DEBOUNCE_MS])
  · exact (tick_debounce_amended tickDb0 "nobody" [] [] 7 0).1
      (by with_unfolding_all rfl)
  · exact (tick_debounce_amended tickDb0 "p1" [] [] 4000 0).2.1 tickRes0
      (by with_unfolding_all rfl) (by norm_num [DEBOUNCE_MS, tickRes0])

end Sovereign
